import Mathlib

/-!
Verification of the Dolphin installation/update orchestrator of
kevinsung/slippi-launcher (`src/dolphin/downloadDolphin.ts`).

The TypeScript source is shallowly embedded as follows:

* The filesystem is a list of file entries (path segments plus content).
  Directories are represented implicitly: a directory exists when some file
  lives under it (matching the fact that every observation the source makes
  goes through `pathExists` / `fileExists` / `readdir` on files it created).
* External collaborators (the GitHub release query `getLatestRelease`, the
  spawned executable's `--version` output, the Electron window lookup, the
  network download, and chmod/chown success) are oracles in an `Env` record.
* Async control flow is sequential in the source (every call is awaited),
  so functions are state-passing: a computation of type `M α` maps a state
  (filesystem plus emitted event log) to a new state and an
  `Except String α` modelling promise resolution/rejection.
* Observable behaviour (log-sink lines, download progress, the IPC terminal
  event, and the individual filesystem actions) is recorded as a list of
  events `Ev`.  Two marker events (`kindStarted`, `downloadAndInstallStarted`)
  record that the corresponding source function was entered; they carry no
  other information.
-/

namespace Slippi

/-- Modelled from the spec: `DolphinLaunchType` lives in `src/dolphin/types.ts`,
which is not part of the provided sources.  The spec (§3) describes it as the
two-valued enum InstallationKind {Netplay, Playback}, used both as a directory
name under the application-data root and to pick the release repository. -/
inductive DolphinLaunchType
  | NETPLAY
  | PLAYBACK
deriving DecidableEq

/-- String value of a `DolphinLaunchType` (the enum values are used directly in
`path.join(app.getPath("userData"), type)` and in log interpolation). -/
def kindDir : DolphinLaunchType → String
  | .NETPLAY => "netplay"
  | .PLAYBACK => "playback"

/-- Process platform, as tested by `process.platform` in the source. -/
inductive Platform
  | win32
  | darwin
  | linux
  | other (s : String)
deriving DecidableEq

/-- String form of the platform, used in error messages. -/
def platformString : Platform → String
  | .win32 => "win32"
  | .darwin => "darwin"
  | .linux => "linux"
  | .other s => s

/-- Paths are lists of segments (the embedding of `path.join`). -/
abbrev Path := List String

/-- Rendering of a path for log strings. -/
def renderPath (p : Path) : String := p.foldl (fun acc seg => acc ++ "/" ++ seg) ""

/-- One file on disk: its absolute path and its content. -/
structure FSEntry where
  path : Path
  content : String
deriving DecidableEq

/-- A filesystem is the list of files that exist. -/
abbrev FS := List FSEntry

/-- Embedding of `fs.pathExists`: a path exists when it is a file or a
directory containing some file. -/
def FS.existsPath (fs : FS) (p : Path) : Bool := fs.any (fun e => p.isPrefixOf e.path)

/-- Embedding of `fileExists` (from `main/fileExists`): an exact file lookup. -/
def FS.existsFile (fs : FS) (p : Path) : Bool := fs.any (fun e => e.path == p)

/-- Embedding of `fs.move src dst`: every file under `src` is re-rooted at
`dst` (the happy path of fs-extra's rename-based move). -/
def FS.move (fs : FS) (src dst : Path) : FS :=
  fs.map (fun e =>
    if src.isPrefixOf e.path then ⟨dst ++ e.path.drop src.length, e.content⟩ else e)

/-- Embedding of `fs.remove p`: recursive removal of a file or directory. -/
def FS.remove (fs : FS) (p : Path) : FS := fs.filter (fun e => !(p.isPrefixOf e.path))

/-- Writing one file, overwriting an existing file at the same path. -/
def FS.writeFile (fs : FS) (p : Path) (c : String) : FS :=
  (fs.filter (fun e => !(e.path == p))) ++ [⟨p, c⟩]

/-- Embedding of archive extraction (`AdmZip.extractAllTo(root, true)` /
`extractDmg(asset, root)`): the image's relative entries are placed under
`root`, overwriting files whose exact path collides. -/
def FS.extractTo (fs : FS) (root : Path) (image : List (Path × String)) : FS :=
  fs.filter (fun e => !(image.any (fun pe => (root ++ pe.1) == e.path)))
    ++ image.map (fun pe => (⟨root ++ pe.1, pe.2⟩ : FSEntry))

/-- A release asset as returned by the GitHub API (`release.assets[i]`). -/
structure Asset where
  name : String
  browser_download_url : String
deriving DecidableEq

/-- A release as returned by `getLatestRelease` (tag plus ordered assets). -/
structure Release where
  tag_name : String
  assets : List Asset
deriving DecidableEq

/-- The events the orchestrator can emit, in order: log-sink lines, the
percentage-progress stream, the network download, each filesystem action of
the installer, the two entry markers, and the single IPC terminal event
(`ipc_dolphinDownloadFinishedEvent`). -/
inductive Ev
  | log (msg : String)
  | progress
  | networkDownload
  | removeRoot (type : DolphinLaunchType)
  | moveToBackup
  | extractEv
  | cleanupEv
  | chmodEv (p : Path)
  | chownEv (p : Path)
  | moveUserEv
  | removeBackupEv
  | removeAppImage
  | removeUserConfig
  | kindStarted (type : DolphinLaunchType)
  | downloadAndInstallStarted (type : DolphinLaunchType)
  | finished (error : Option String)
deriving DecidableEq

/-- The oracle environment: platform plus the behaviour of every external
collaborator.  `archive` is the content of the downloaded artifact as seen by
the extraction collaborators (one installer run extracts one artifact). -/
structure Env where
  platform : Platform
  getLatestRelease : String → String → Except String Release
  versionOutput : DolphinLaunchType → Except String String
  windowAvailable : Bool
  downloadOk : Bool
  archive : List (Path × String)
  chmodOk : Bool

/-- Per-kind target root: `path.join(app.getPath("userData"), type)`. -/
def dolphinRootPath (type : DolphinLaunchType) : Path := ["userData", kindDir type]

/-- Transient darwin backup: `dolphinPath + "_old"`. -/
def backupPath (type : DolphinLaunchType) : Path := ["userData", kindDir type ++ "_old"]

/-- Name of the darwin application bundle. -/
def appBundle : String := "Slippi Dolphin.app"

/-- `path.join(dolphinPath, "Slippi Dolphin.app", "Contents", "Resources")`. -/
def darwinResourcesPath (type : DolphinLaunchType) : Path :=
  dolphinRootPath type ++ [appBundle, "Contents", "Resources"]

/-- The user-data subdirectory of a darwin installation. -/
def darwinUserPath (type : DolphinLaunchType) : Path := darwinResourcesPath type ++ ["User"]

/-- The darwin application bundle path. -/
def bundlePath (type : DolphinLaunchType) : Path := dolphinRootPath type ++ [appBundle]

/-- `path.join(dolphinPath, "Slippi Dolphin.app", "Contents", "MacOS", "Slippi Dolphin")`. -/
def binaryLocation (type : DolphinLaunchType) : Path :=
  dolphinRootPath type ++ [appBundle, "Contents", "MacOS", "Slippi Dolphin"]

/-- Per-kind linux user-configuration folder name (source line 227). -/
def linuxConfigFolder (type : DolphinLaunchType) : String :=
  if type = .NETPLAY then "SlippiOnline" else "SlippiPlayback"

/-- `path.join(app.getPath("home"), ".config", userFolder)`. -/
def linuxConfigPath (type : DolphinLaunchType) : Path :=
  ["home", ".config", linuxConfigFolder type]

/-- Modelled from the spec: `findDolphinExecutable` lives in
`src/dolphin/util.ts`, which is not part of the provided sources.  The spec
(§6 "Executable discovery") says it returns the expected executable path by a
fixed platform-specific layout convention and fails with NotFound if absent.
This is that fixed per-platform location relative to the per-kind root. -/
def execRelPath : Platform → Path
  | .win32 => ["Slippi Dolphin.exe"]
  | .darwin => [appBundle, "Contents", "MacOS", "Slippi Dolphin"]
  | .linux => ["Slippi_Online-x86_64.AppImage"]
  | .other _ => ["dolphin"]

/-- The discovery path for a kind on the running platform. -/
def execPathOf (env : Env) (type : DolphinLaunchType) : Path :=
  dolphinRootPath type ++ execRelPath env.platform

/-- Modelled from the spec: discovery returns the conventional path when the
file exists and nothing otherwise (§6, "fails with `NotFound` if absent"). -/
def findExecFS (env : Env) (fs : FS) (type : DolphinLaunchType) : Option Path :=
  if fs.existsFile (execPathOf env type) then some (execPathOf env type) else none

/-- Modelled from the spec: the NotFound rejection message of
`findDolphinExecutable`. -/
def execNotFoundMsg (type : DolphinLaunchType) : String :=
  "Could not find " ++ kindDir type ++ " Dolphin executable"

/-- Rejection message of a failed chmod/chown collaborator call. -/
def chmodErrMsg : String := "EPERM: operation not permitted"

/-- Result of one `installDolphin` run: final filesystem, emitted events, and
the rejection message if the returned promise rejected. -/
structure InstallResult where
  fs : FS
  evs : List Ev
  err : Option String
deriving DecidableEq

/-- Prefixes events onto an installer result. -/
def prependEvs (evs : List Ev) (r : InstallResult) : InstallResult :=
  { r with evs := evs ++ r.evs }

/-- The win32 branch of `installDolphin` (lines 151-158): extract the zip over
the target root, overwriting in place. -/
def installWin32 (env : Env) (type : DolphinLaunchType) (fs : FS) : InstallResult :=
  { fs := FS.extractTo fs (dolphinRootPath type) env.archive,
    evs := [.log ("Extracting to: " ++ renderPath (dolphinRootPath type)), .extractEv],
    err := none }

/-- The darwin cleanup loop (lines 171-186): every top-level entry of the root
other than the application bundle is unlinked/removed.  The source issues this
through a callback-style `fs.readdir` that is not actually awaited; the model
applies its net effect synchronously and records it as one event. -/
def FS.cleanupExtraneous (fs : FS) (root : Path) : FS :=
  fs.filter (fun e =>
    !(root.isPrefixOf e.path) || ((e.path.drop root.length).head? == some appBundle))

/-- Log line of the darwin permission-fix catch handler (line 195). -/
def permFailLogMsg (type : DolphinLaunchType) : String :=
  "could not chmod/chown " ++ kindDir type ++ " Dolphin\n" ++ chmodErrMsg

/-- The darwin permission-fix block (lines 187-196): chmod/chown the bundle and
the inner binary inside a try/catch; on the first failing call the rest of the
block is skipped and the failure is logged. -/
def darwinPermEvs (env : Env) (type : DolphinLaunchType) : List Ev :=
  if env.chmodOk then
    [.chmodEv (bundlePath type), .chownEv (bundlePath type),
     .chmodEv (binaryLocation type), .chownEv (binaryLocation type)]
  else
    [.chmodEv (bundlePath type), .log (permFailLogMsg type)]

/-- The backup's user-data subdirectory (line 200). -/
def oldUserPath (type : DolphinLaunchType) : Path :=
  backupPath type ++ [appBundle, "Contents", "Resources", "User"]

/-- The darwin user-data migration block (lines 198-210): if a backup was made,
move its User folder into the new installation when present, then delete the
backup.  The move's destination `newUserFolder` (line 201) is the new
installation's `User` directory, `darwinUserPath`. -/
def darwinMigrate (type : DolphinLaunchType) (alreadyInstalled : Bool) (fs : FS) :
    FS × List Ev :=
  if alreadyInstalled then
    if fs.existsPath (oldUserPath type) then
      (FS.remove (FS.move fs (oldUserPath type) (darwinUserPath type)) (backupPath type),
       [.log "moving User folder...", .moveUserEv, .removeBackupEv])
    else
      (FS.remove fs (backupPath type),
       [.log "no old User folder to move", .removeBackupEv])
  else (fs, [])

/-- The darwin branch after the optional backup move (lines 169-210): extract
the dmg, drop extraneous top-level files, fix permissions (best effort), then
migrate user data and delete the backup. -/
def darwinAfterBackup (env : Env) (type : DolphinLaunchType) (alreadyInstalled : Bool)
    (fs : FS) : InstallResult :=
  let root := dolphinRootPath type
  let fs1 := FS.extractTo fs root env.archive
  let fs2 := FS.cleanupExtraneous fs1 root
  let m := darwinMigrate type alreadyInstalled fs2
  { fs := m.1,
    evs := [.log ("Extracting to: " ++ renderPath root), .extractEv, .cleanupEv]
      ++ darwinPermEvs env type ++ m.2,
    err := none }

/-- The darwin branch of `installDolphin` (lines 159-212): when a previous
installation's resource directory exists, rename the whole root to the `_old`
backup first. -/
def installDarwin (env : Env) (type : DolphinLaunchType) (fs : FS) : InstallResult :=
  if fs.existsPath (darwinResourcesPath type) then
    prependEvs
      [.log (renderPath (darwinResourcesPath type) ++ " already exists. Moving..."),
       .moveToBackup]
      (darwinAfterBackup env type true
        (FS.move fs (dolphinRootPath type) (backupPath type)))
  else
    darwinAfterBackup env type false fs

/-- Tail of the linux branch after extraction (lines 234-237): rediscover the
executable (the call rejects when it is absent), then chmod it; the chmod is
not guarded by any try/catch, so its failure rejects the install. -/
def linuxFinish (env : Env) (type : DolphinLaunchType) (fsC : FS) (evs0 : List Ev) :
    InstallResult :=
  match findExecFS env fsC type with
  | none => { fs := fsC, evs := evs0, err := some (execNotFoundMsg type) }
  | some p =>
    { fs := fsC, evs := evs0 ++ [.log "Setting executable permissions...", .chmodEv p],
      err := if env.chmodOk then none else some chmodErrMsg }

/-- The linux branch of `installDolphin` (lines 213-239): delete a discoverable
existing AppImage, on clean install also delete the per-kind config directory,
extract the zip, then chmod the freshly discovered executable. -/
def installLinux (env : Env) (type : DolphinLaunchType) (clean : Bool) (fs : FS) :
    InstallResult :=
  let step1 : FS × List Ev :=
    match findExecFS env fs type with
    | some p => (FS.remove fs p, [.log (renderPath p ++ " already exists. Deleting..."),
        .removeAppImage])
    | none => (fs, [.log "No existing AppImage found"])
  let step2 : FS × List Ev :=
    if clean then (FS.remove step1.1 (linuxConfigPath type), [.removeUserConfig])
    else (step1.1, [])
  linuxFinish env type (FS.extractTo step2.1 (dolphinRootPath type) env.archive)
    (step1.2 ++ step2.2 ++ [.extractEv])

/-- Embedding of `installDolphin` (lines 138-244): an optional clean wipe of
the per-kind root happens before the platform switch; an unsupported platform
throws after the wipe.  `assetPath` is the downloaded artifact's path; its
contents are `env.archive`. -/
def installDolphinCore (env : Env) (type : DolphinLaunchType) (assetPath : Path)
    (clean : Bool) (fs : FS) : InstallResult :=
  let root := dolphinRootPath type
  let fs0 := if clean then FS.remove fs root else fs
  let evs0 : List Ev := if clean then [.removeRoot type] else []
  match env.platform with
  | .win32 => prependEvs evs0 (installWin32 env type fs0)
  | .darwin => prependEvs evs0 (installDarwin env type fs0)
  | .linux => prependEvs evs0 (installLinux env type clean fs0)
  | .other s =>
    { fs := fs0, evs := evs0,
      err := some ("Installing Netplay is not supported on this platform: " ++ s) }

/-! Embedding of the semver collaborator (`lt` from the semver package), for
release-shaped version strings `major.minor.patch`.  The library trims the
input and rejects anything that does not parse. -/

/-- Whitespace recognizer used by the trim step. -/
def isWs (c : Char) : Bool := c = ' ' || c = '\n' || c = '\t' || c = '\r'

/-- Trimming leading and trailing whitespace from a character list. -/
def trimChars (l : List Char) : List Char :=
  ((l.dropWhile isWs).reverse.dropWhile isWs).reverse

/-- One step of splitting a character list on the dot separator. -/
def splitDotAux (c : Char) (acc : List (List Char)) : List (List Char) :=
  match acc with
  | [] => [[]]
  | h :: t => if c = '.' then [] :: h :: t else (c :: h) :: t

/-- Splitting a character list on dots. -/
def splitDot (l : List Char) : List (List Char) := l.foldr splitDotAux [[]]

/-- Decimal digit value of a character. -/
def digitVal (c : Char) : Option Nat :=
  if c = '0' then some 0 else if c = '1' then some 1 else if c = '2' then some 2
  else if c = '3' then some 3 else if c = '4' then some 4 else if c = '5' then some 5
  else if c = '6' then some 6 else if c = '7' then some 7 else if c = '8' then some 8
  else if c = '9' then some 9 else none

/-- Parsing a non-empty all-digit character list as a natural number. -/
def parseNatChars (l : List Char) : Option Nat :=
  match l with
  | [] => none
  | _ =>
    l.foldl (fun acc c =>
      match acc, digitVal c with
      | some n, some d => some (n * 10 + d)
      | _, _ => none) (some 0)

/-- Parsing a `major.minor.patch` version string, after trimming. -/
def parseSemver (s : String) : Option (Nat × Nat × Nat) :=
  match (splitDot (trimChars s.data)).map parseNatChars with
  | [some a, some b, some c] => some (a, b, c)
  | _ => none

/-- Strict semantic-version ordering on parsed triples: lexicographic on
major, then minor, then patch. -/
def semverTripleLt : Nat × Nat × Nat → Nat × Nat × Nat → Bool
  | (a1, b1, c1), (a2, b2, c2) =>
    Nat.blt a1 a2 || (a1 == a2 && (Nat.blt b1 b2 || (b1 == b2 && Nat.blt c1 c2)))

/-- The semver package's `lt(a, b)`: parse both arguments (throwing
`Invalid Version` on failure) and compare strictly. -/
def semverLtE (a b : String) : Except String Bool :=
  match parseSemver a, parseSemver b with
  | some x, some y => .ok (semverTripleLt x y)
  | _, _ => .error "Invalid Version"

/-- Embedding of the JS `String.prototype.endsWith`. -/
def strEndsWith (s sfx : String) : Bool := sfx.data.isSuffixOf s.data

/-- Embedding of `matchesPlatform` (lines 97-108). -/
def matchesPlatform (platform : Platform) (releaseName : String) : Bool :=
  match platform with
  | .win32 => strEndsWith releaseName "Win.zip"
  | .darwin => strEndsWith releaseName "Mac.dmg"
  | .linux => strEndsWith releaseName "Linux.zip"
  | .other _ => false

/-- Repository queried for a kind (lines 89-93): `"Ishiiruka"`, with
`"-Playback"` appended for the playback kind. -/
def repoName (type : DolphinLaunchType) : String :=
  if type = .PLAYBACK then "Ishiiruka" ++ "-Playback" else "Ishiiruka"

/-- Embedding of `getLatestReleaseData` (lines 88-95): one query to the
release-metadata provider. -/
def getLatestReleaseData (env : Env) (type : DolphinLaunchType) : Except String Release :=
  env.getLatestRelease "project-slippi" (repoName type)

/-- Embedding of `getLatestDolphinAsset` (lines 79-86): first asset of the
latest release whose name matches the platform, else a platform-identifying
error. -/
def getLatestDolphinAsset (env : Env) (type : DolphinLaunchType) : Except String Asset :=
  match getLatestReleaseData env type with
  | .error e => .error e
  | .ok release =>
    match release.assets.find? (fun a => matchesPlatform env.platform a.name) with
    | some a => .ok a
    | none =>
      .error ("No release asset matched the current platform: "
        ++ platformString env.platform)

/-! The state-passing embedding of the async orchestration functions. -/

/-- Mutable world state threaded through the orchestrator: the filesystem and
the ordered list of events emitted so far. -/
structure St where
  fs : FS
  events : List Ev
deriving DecidableEq

/-- An awaited computation: takes the state, returns the new state and either
the resolved value or the rejection message. -/
abbrev M (α : Type) := St → St × Except String α

/-- Appends one event to the state. -/
def pushEv (s : St) (ev : Ev) : St := { s with events := s.events ++ [ev] }

/-- Result of one directly-modelled step (used by the downloader): new
filesystem, emitted events, and resolution or rejection. -/
structure StepResult (α : Type) where
  fs : FS
  evs : List Ev
  out : Except String α

/-- Embedding of `findDolphinExecutable` as an awaited step (discovery itself
is modelled from the spec, see `findExecFS`). -/
def findDolphinExecutable (env : Env) (type : DolphinLaunchType) : M Path := fun s =>
  match findExecFS env s.fs type with
  | some p => (s, .ok p)
  | none => (s, .error (execNotFoundMsg type))

/-- Embedding of `compareDolphinVersion` (lines 68-72): rediscover the
executable, capture its `--version` output, and compare it with the latest
tag using the semver collaborator. -/
def compareDolphinVersion (env : Env) (type : DolphinLaunchType)
    (latestVersion : String) : M Bool := fun s =>
  match findDolphinExecutable env type s with
  | (s1, .error e) => (s1, .error e)
  | (s1, .ok _dolphinPath) =>
    match env.versionOutput type with
    | .error e => (s1, .error e)
    | .ok dolphinVersion => (s1, semverLtE dolphinVersion latestVersion)

/-- The deterministic cache location `cacheDir/asset.name` with
`cacheDir = path.join(app.getPath("userData"), "temp")`. -/
def downloadLocationOf (asset : Asset) : Path := ["userData", "temp", asset.name]

/-- Embedding of the caching part of `downloadLatestDolphin` (lines 115-135),
the spec's `ensureLocal(asset, cacheDir)`: skip when the file already exists;
otherwise download when a window is available (emitting the progress stream)
and soft-degrade to a diagnostic log line when none is. -/
def ensureLocal (env : Env) (asset : Asset) (fs : FS) : StepResult Path :=
  let downloadLocation := downloadLocationOf asset
  if fs.existsFile downloadLocation then
    { fs := fs,
      evs := [.log (renderPath downloadLocation ++ " already exists. Skipping download.")],
      out := .ok downloadLocation }
  else
    let dlLog := Ev.log ("Downloading " ++ asset.browser_download_url ++ " to "
      ++ renderPath downloadLocation)
    if env.windowAvailable then
      if env.downloadOk then
        { fs := FS.writeFile fs downloadLocation asset.browser_download_url,
          evs := [dlLog, .networkDownload, .progress,
            .log ("Successfully downloaded " ++ asset.browser_download_url ++ " to "
              ++ renderPath downloadLocation)],
          out := .ok downloadLocation }
      else
        { fs := fs, evs := [dlLog, .networkDownload], out := .error "net::ERR_FAILED" }
    else
      { fs := fs,
        evs := [dlLog,
          .log "I dunno how we got here, but apparently there is not a browser window /shrug"],
        out := .ok downloadLocation }

/-- Embedding of `downloadLatestDolphin` (lines 110-136): resolve the asset,
then ensure it is cached locally. -/
def downloadLatestDolphin (env : Env) (type : DolphinLaunchType) : M Path := fun s =>
  match getLatestDolphinAsset env type with
  | .error e => (s, .error e)
  | .ok asset =>
    let r := ensureLocal env asset s.fs
    ({ fs := r.fs, events := s.events ++ r.evs }, r.out)

/-- `installDolphin` as an awaited step over the world state. -/
def installDolphinM (env : Env) (type : DolphinLaunchType) (assetPath : Path)
    (clean : Bool) : M Unit := fun s =>
  let r := installDolphinCore env type assetPath clean s.fs
  ({ fs := r.fs, events := s.events ++ r.evs },
   match r.err with
   | none => .ok ()
   | some e => .error e)

/-- Log line emitted before installing. -/
def logInstallingMsg (type : DolphinLaunchType) : String :=
  "Installing " ++ kindDir type ++ " Dolphin..."

/-- Log line emitted after installing. -/
def logFinishedMsg (type : DolphinLaunchType) : String :=
  "Finished " ++ kindDir type ++ " installing"

/-- Continuation of `downloadAndInstallDolphin` after the download resolved or
rejected (lines 51-53): log, install, log. -/
def installPhase (env : Env) (type : DolphinLaunchType) (clean : Bool)
    (r : St × Except String Path) : St × Except String Unit :=
  match r with
  | (s1, .error e) => (s1, .error e)
  | (s1, .ok assetPath) =>
    match installDolphinM env type assetPath clean
        (pushEv s1 (.log (logInstallingMsg type))) with
    | (s3, .error e) => (s3, .error e)
    | (s3, .ok _) => (pushEv s3 (.log (logFinishedMsg type)), .ok ())

/-- Embedding of `downloadAndInstallDolphin` (lines 45-54): download the
latest artifact, then install it.  The first event is the entry marker. -/
def downloadAndInstallDolphin (env : Env) (type : DolphinLaunchType)
    (clean : Bool) : M Unit := fun s =>
  installPhase env type clean
    (downloadLatestDolphin env type (pushEv s (.downloadAndInstallStarted type)))

/-- Log line for a discovered executable. -/
def logFoundMsg (type : DolphinLaunchType) : String :=
  "Found existing " ++ kindDir type ++ " Dolphin executable."

/-- Log line before the update check. -/
def logCheckingMsg (type : DolphinLaunchType) : String :=
  "Checking if we need to update " ++ kindDir type ++ " Dolphin"

/-- Log line when an update is needed. -/
def logOutdatedMsg (type : DolphinLaunchType) : String :=
  kindDir type ++ " Dolphin installation is outdated. Downloading latest..."

/-- Log line of the catch handler. -/
def logCouldNotFindMsg (type : DolphinLaunchType) : String :=
  "Could not find " ++ kindDir type ++ " Dolphin installation. Downloading..."

/-- Continuation of the try-block after the version comparison resolved or
rejected (lines 31-38): download and install when outdated, otherwise log that
no update was found. -/
def versionPhase (env : Env) (type : DolphinLaunchType)
    (rc : St × Except String Bool) : St × Except String Unit :=
  match rc with
  | (s3, .error e) => (s3, .error e)
  | (s3, .ok true) =>
    downloadAndInstallDolphin env type false (pushEv s3 (.log (logOutdatedMsg type)))
  | (s3, .ok false) => (pushEv s3 (.log "No update found..."), .ok ())

/-- Continuation of the try-block after the discovery resolved or rejected
(lines 27-38): log, query the latest release, and compare versions. -/
def updateCheckPhase (env : Env) (type : DolphinLaunchType)
    (r : St × Except String Path) : St × Except String Unit :=
  match r with
  | (s1, .error e) => (s1, .error e)
  | (s1, .ok _) =>
    match getLatestReleaseData env type with
    | .error e =>
      (pushEv (pushEv s1 (.log (logFoundMsg type))) (.log (logCheckingMsg type)), .error e)
    | .ok data =>
      versionPhase env type (compareDolphinVersion env type data.tag_name
        (pushEv (pushEv s1 (.log (logFoundMsg type))) (.log (logCheckingMsg type))))

/-- The try-block of `assertDolphinInstallation` (lines 25-38), starting from
the state holding the entry marker: discovery, logging, release query, version
comparison, and the outdated-path download. -/
def assertTryBody (env : Env) (type : DolphinLaunchType) (s0 : St) :
    St × Except String Unit :=
  updateCheckPhase env type (findDolphinExecutable env type s0)

/-- The catch handler of `assertDolphinInstallation` (lines 39-42): any
rejection of the try-block leads to a from-scratch download and install, whose
own rejection propagates. -/
def assertCatch (env : Env) (type : DolphinLaunchType) (r : St × Except String Unit) :
    St × Except String Unit :=
  match r with
  | (sE, .error _e) =>
    downloadAndInstallDolphin env type false (pushEv sE (.log (logCouldNotFindMsg type)))
  | (sE, .ok u) => (sE, .ok u)

/-- Embedding of `assertDolphinInstallation` (lines 21-43).  The whole body is
a try/catch: any rejection inside it (discovery, release query, version
invocation or comparison) lands in the catch handler, which downloads and
installs from scratch.  The first event is the entry marker. -/
def assertDolphinInstallation (env : Env) (type : DolphinLaunchType) : M Unit := fun s =>
  assertCatch env type (assertTryBody env type (pushEv s (.kindStarted type)))

/-- Continuation of `assertDolphinInstallations` after the netplay kind
resolved or rejected: the playback kind, then the single terminal event. -/
def playbackPhase (env : Env) (r1 : St × Except String Unit) : St × Except String Unit :=
  match r1 with
  | (s1, .error e) => (pushEv s1 (.finished (some e)), .ok ())
  | (s1, .ok _) =>
    match assertDolphinInstallation env .PLAYBACK s1 with
    | (s2, .error e) => (pushEv s2 (.finished (some e)), .ok ())
    | (s2, .ok _) => (pushEv s2 (.finished none), .ok ())

/-- Embedding of `assertDolphinInstallations` (lines 56-66), the spec's
`syncAll`: netplay first, then playback, then the success terminal event; any
rejection is caught and turned into the failure terminal event. -/
def assertDolphinInstallations (env : Env) : M Unit := fun s =>
  playbackPhase env (assertDolphinInstallation env .NETPLAY s)

/-- Base oracle for the concrete instances used in witnesses and
counterexamples: every collaborator fails.  Individual instances override the
fields they care about. -/
def baseEnv : Env :=
  { platform := .other "test",
    getLatestRelease := fun _ _ => .error "offline",
    versionOutput := fun _ => .error "spawn failure",
    windowAvailable := false,
    downloadOk := false,
    archive := [],
    chmodOk := false }

/-- Permission-fix actions: the chmod/chown calls of the FixPermissions step. -/
def isPermFixEv : Ev → Bool
  | .chmodEv _ => true
  | .chownEv _ => true
  | _ => false

/-- The user-data migration action (the move of the backed-up User folder). -/
def isMigrateEv : Ev → Bool
  | .moveUserEv => true
  | _ => false

/-- Decides whether a permission-fix action strictly precedes the first
migration action in a run (both must occur in the run). -/
def permFixBeforeMigration (evs : List Ev) : Bool :=
  match evs.findIdx? isPermFixEv, evs.findIdx? isMigrateEv with
  | some i, some j => decide (i < j)
  | _, _ => false

/-- The download network-transfer event recognizer. -/
def isNetworkEv : Ev → Bool
  | .networkDownload => true
  | _ => false

/-- The terminal IPC event recognizer. -/
def isFinishedEv : Ev → Bool
  | .finished _ => true
  | _ => false

/-- Number of terminal IPC events in a run. -/
def countFinished (evs : List Ev) : Nat := evs.countP isFinishedEv

/-- Events that are neither a terminal event nor an entry marker of a kind:
everything the per-kind workers below the orchestrator may emit. -/
def neutralEv : Ev → Bool
  | .finished _ => false
  | .kindStarted _ => false
  | _ => true

/-- Events an `assertDolphinInstallation` run for `type` may emit: no terminal
event, and no other kind's entry marker. -/
def localEv (type : DolphinLaunchType) : Ev → Bool
  | .finished _ => false
  | .kindStarted t => t == type
  | _ => true

/-! Helper lemmas about the filesystem model. -/

lemma isPrefixOf_append_self (l t : Path) : l.isPrefixOf (l ++ t) = true := by
  rw [List.isPrefixOf_iff_prefix]
  exact l.prefix_append t

lemma isPrefixOf_pair_false {x y : String} (a : String) (h : x ≠ y) (t : Path) :
    ([a, x] : Path).isPrefixOf (a :: y :: t) = false := by
  simp [List.isPrefixOf, h]

lemma kindDir_ne_old (type : DolphinLaunchType) : kindDir type ≠ kindDir type ++ "_old" := by
  cases type <;> decide

lemma root_not_prefix_of_backup (type : DolphinLaunchType) (t : Path) :
    (dolphinRootPath type).isPrefixOf (backupPath type ++ t) = false :=
  isPrefixOf_pair_false "userData" (kindDir_ne_old type) t

lemma backup_not_prefix_of_root (type : DolphinLaunchType) (t : Path) :
    (backupPath type).isPrefixOf (dolphinRootPath type ++ t) = false :=
  isPrefixOf_pair_false "userData" (fun h => kindDir_ne_old type h.symm) t

lemma FS.mem_remove_iff {fs : FS} {p : Path} {e : FSEntry} :
    e ∈ FS.remove fs p ↔ e ∈ fs ∧ p.isPrefixOf e.path = false := by
  simp [FS.remove, List.mem_filter]

lemma FS.mem_move_of {fs : FS} {e : FSEntry} (src dst : Path) (he : e ∈ fs)
    (h : src.isPrefixOf e.path = true) :
    (⟨dst ++ e.path.drop src.length, e.content⟩ : FSEntry) ∈ FS.move fs src dst := by
  refine List.mem_map.mpr ⟨e, he, ?_⟩
  simp [h]

lemma FS.mem_extractTo_of_mem {fs : FS} {root : Path} {image : List (Path × String)}
    {e : FSEntry} (he : e ∈ fs) (h : root.isPrefixOf e.path = false) :
    e ∈ FS.extractTo fs root image := by
  refine List.mem_append_left _ (List.mem_filter.mpr ⟨he, ?_⟩)
  rw [Bool.not_eq_true', List.any_eq_false]
  intro pe _hpe
  intro heq
  have heq2 : root ++ pe.1 = e.path := eq_of_beq heq
  rw [← heq2, isPrefixOf_append_self] at h
  exact Bool.true_eq_false.mp h

lemma FS.mem_cleanup_of_mem {fs : FS} {root : Path} {e : FSEntry} (he : e ∈ fs)
    (h : root.isPrefixOf e.path = false) : e ∈ FS.cleanupExtraneous fs root :=
  List.mem_filter.mpr ⟨he, by simp [h]⟩

lemma FS.existsPath_of_mem {fs : FS} {p : Path} {e : FSEntry} (he : e ∈ fs)
    (h : p.isPrefixOf e.path = true) : FS.existsPath fs p = true :=
  List.any_eq_true.mpr ⟨e, he, h⟩

lemma FS.existsFile_extractTo {root p : Path} {c : String} (fs : FS)
    {image : List (Path × String)} (h : (p, c) ∈ image) :
    FS.existsFile (FS.extractTo fs root image) (root ++ p) = true := by
  refine List.any_eq_true.mpr ⟨⟨root ++ p, c⟩, ?_, by simp⟩
  exact List.mem_append_right _ (List.mem_map.mpr ⟨(p, c), h, rfl⟩)

/-! Per-branch facts about the installer, shared by multiple claims. -/

lemma installWin32_extract_mem (env : Env) (type : DolphinLaunchType) (fs : FS) :
    Ev.extractEv ∈ (installWin32 env type fs).evs := by
  simp [installWin32]

lemma installDarwin_extract_mem (env : Env) (type : DolphinLaunchType) (fs : FS) :
    Ev.extractEv ∈ (installDarwin env type fs).evs := by
  unfold installDarwin darwinAfterBackup prependEvs
  split <;> simp

lemma linuxFinish_extract_mem (env : Env) (type : DolphinLaunchType) (fsC : FS)
    (evs0 : List Ev) (h : Ev.extractEv ∈ evs0) :
    Ev.extractEv ∈ (linuxFinish env type fsC evs0).evs := by
  unfold linuxFinish
  rcases findExecFS env fsC type with _ | p <;> simp [h]

lemma installLinux_extract_mem (env : Env) (type : DolphinLaunchType) (clean : Bool)
    (fs : FS) : Ev.extractEv ∈ (installLinux env type clean fs).evs := by
  unfold installLinux
  exact linuxFinish_extract_mem _ _ _ _ (by simp)

/-! Claim C9. -/

/-- C9 — for every supported platform variant and every installation kind,
`install(cleanInstall = true)` removes all prior contents of the per-kind
target root before the staging extraction runs: the clean wipe is the very
first action of the run, staging occurs later in the run, and the wipe leaves
no entry under the target root. -/
theorem c9_clean_install_wipes_before_staging (env : Env) (type : DolphinLaunchType)
    (assetPath : Path) (fs : FS)
    (h : env.platform = .win32 ∨ env.platform = .darwin ∨ env.platform = .linux) :
    (installDolphinCore env type assetPath true fs).evs.head? = some (.removeRoot type) ∧
    Ev.extractEv ∈ (installDolphinCore env type assetPath true fs).evs ∧
    ∀ e ∈ FS.remove fs (dolphinRootPath type),
      (dolphinRootPath type).isPrefixOf e.path = false := by
  refine ⟨?_, ?_, fun e he => (FS.mem_remove_iff.mp he).2⟩ <;>
    rcases h with h | h | h <;>
      simp only [installDolphinCore, h, prependEvs, if_true] <;>
      simp [installWin32_extract_mem, installDarwin_extract_mem, installLinux_extract_mem]

/-- Witness for C9 at a concrete darwin input. -/
theorem c9_witness :
    (Platform.darwin = Platform.win32 ∨ Platform.darwin = Platform.darwin ∨
      Platform.darwin = Platform.linux) ∧
    (installDolphinCore
        { platform := .darwin, getLatestRelease := fun _ _ => .error "offline",
          versionOutput := fun _ => .error "none", windowAvailable := true,
          downloadOk := true, archive := [], chmodOk := true }
        .NETPLAY ["userData", "temp", "a.dmg"] true
        [⟨["userData", "netplay", "old.txt"], "x"⟩]).evs.head?
      = some (.removeRoot .NETPLAY) := by
  refine ⟨by decide, ?_⟩
  exact (c9_clean_install_wipes_before_staging _ .NETPLAY ["userData", "temp", "a.dmg"]
    [⟨["userData", "netplay", "old.txt"], "x"⟩] (Or.inr (Or.inl rfl))).1

/-! Claim C10. -/

/-- C10 — invoking `installDolphin` with `cleanInstall = true` on an
unsupported platform removes the entire per-kind target root and only then
throws the PlatformUnsupported error: the run is not atomic. -/
theorem c10_unsupported_platform_wipes_then_throws (env : Env) (type : DolphinLaunchType)
    (assetPath : Path) (fs : FS) (s : String) (h : env.platform = .other s) :
    installDolphinCore env type assetPath true fs =
      { fs := FS.remove fs (dolphinRootPath type),
        evs := [.removeRoot type],
        err := some ("Installing Netplay is not supported on this platform: " ++ s) } := by
  unfold installDolphinCore
  rw [h]
  simp

/-- Witness for C10: on a concrete unsupported platform the call fails and yet
the filesystem has changed (the root's prior contents are gone). -/
theorem c10_witness :
    (installDolphinCore
        { platform := .other "freebsd", getLatestRelease := fun _ _ => .error "offline",
          versionOutput := fun _ => .error "none", windowAvailable := true,
          downloadOk := true, archive := [], chmodOk := true }
        .NETPLAY ["userData", "temp", "a.zip"] true
        [⟨["userData", "netplay", "user.json"], "cfg"⟩] =
      { fs := [],
        evs := [.removeRoot .NETPLAY],
        err := some "Installing Netplay is not supported on this platform: freebsd" }) ∧
    (installDolphinCore
        { platform := .other "freebsd", getLatestRelease := fun _ _ => .error "offline",
          versionOutput := fun _ => .error "none", windowAvailable := true,
          downloadOk := true, archive := [], chmodOk := true }
        .NETPLAY ["userData", "temp", "a.zip"] true
        [⟨["userData", "netplay", "user.json"], "cfg"⟩]).fs
      ≠ [⟨["userData", "netplay", "user.json"], "cfg"⟩] := by
  constructor
  · have h := c10_unsupported_platform_wipes_then_throws
      { platform := .other "freebsd", getLatestRelease := fun _ _ => .error "offline",
        versionOutput := fun _ => .error "none", windowAvailable := true,
        downloadOk := true, archive := [], chmodOk := true }
      .NETPLAY ["userData", "temp", "a.zip"]
      [⟨["userData", "netplay", "user.json"], "cfg"⟩] "freebsd" rfl
    rw [h]
    decide
  · decide

/-! Claim C5. -/

lemma installDarwin_err_none (env : Env) (type : DolphinLaunchType) (fs : FS) :
    (installDarwin env type fs).err = none := by
  unfold installDarwin darwinAfterBackup prependEvs
  split <;> simp

lemma installDarwin_permlog_mem (env : Env) (type : DolphinLaunchType) (fs : FS)
    (hc : env.chmodOk = false) :
    Ev.log (permFailLogMsg type) ∈ (installDarwin env type fs).evs := by
  unfold installDarwin darwinAfterBackup prependEvs darwinPermEvs
  rw [hc]
  split <;> simp

lemma findExecFS_extractTo (env : Env) (type : DolphinLaunchType) (X : FS)
    (hplat : env.platform = .linux) {c : String}
    (hex : (execRelPath .linux, c) ∈ env.archive) :
    findExecFS env (FS.extractTo X (dolphinRootPath type) env.archive) type
      = some (execPathOf env type) := by
  have hfile : FS.existsFile (FS.extractTo X (dolphinRootPath type) env.archive)
      (execPathOf env type) = true := by
    rw [execPathOf, hplat]
    exact FS.existsFile_extractTo X hex
  simp [findExecFS, hfile]

lemma linuxFinish_chmod_fail (env : Env) (type : DolphinLaunchType) (X : FS)
    (evs0 : List Ev) (hplat : env.platform = .linux) (hc : env.chmodOk = false)
    {c : String} (hex : (execRelPath .linux, c) ∈ env.archive) :
    (linuxFinish env type (FS.extractTo X (dolphinRootPath type) env.archive) evs0).err
      = some chmodErrMsg := by
  unfold linuxFinish
  rw [findExecFS_extractTo env type X hplat hex]
  simp [hc]

lemma installLinux_chmod_fail_err (env : Env) (type : DolphinLaunchType) (clean : Bool)
    (fs : FS) (hplat : env.platform = .linux) (hc : env.chmodOk = false)
    (c : String) (hex : (execRelPath .linux, c) ∈ env.archive) :
    (installLinux env type clean fs).err = some chmodErrMsg := by
  unfold installLinux
  exact linuxFinish_chmod_fail env type _ _ hplat hc hex

/-- C5 counterexample — the claim says a permission-fix failure is non-fatal on
every platform variant, but on the linux variant the final `fs.chmod` is not
guarded: with a failing chmod collaborator and an otherwise fully successful
install (the archive does contain the AppImage), the install run rejects with
the chmod error instead of succeeding. -/
theorem c5_counterexample :
    (installDolphinCore
        { baseEnv with
          platform := .linux,
          archive := [(["Slippi_Online-x86_64.AppImage"], "elf")] }
        .NETPLAY ["userData", "temp", "a-Linux.zip"] false []).err
      = some chmodErrMsg := by
  rfl

/-- C5 amended — a permission-fix failure is non-fatal only on the disk-image
(darwin) variant, where the chmod/chown block is wrapped in a try/catch that
logs the failure and lets the install succeed; on the linux variant the chmod
of the discovered executable is unguarded and its failure is fatal (the win32
variant has no permission-fix step at all). -/
theorem c5_amended_permission_fix (env : Env) (type : DolphinLaunchType)
    (assetPath : Path) (clean : Bool) (fs : FS) :
    (env.platform = .darwin → env.chmodOk = false →
      (installDolphinCore env type assetPath clean fs).err = none ∧
      Ev.log (permFailLogMsg type) ∈ (installDolphinCore env type assetPath clean fs).evs) ∧
    (env.platform = .linux → env.chmodOk = false →
      ∀ c : String, (execRelPath .linux, c) ∈ env.archive →
        (installDolphinCore env type assetPath clean fs).err = some chmodErrMsg) := by
  constructor
  · intro hp hc
    unfold installDolphinCore
    rw [hp]
    cases clean <;>
      simp [prependEvs, installDarwin_err_none, installDarwin_permlog_mem _ _ _ hc]
  · intro hp hc c hex
    unfold installDolphinCore
    rw [hp]
    cases clean <;>
      simp [prependEvs, installLinux_chmod_fail_err _ _ _ _ hp hc c hex]

/-- Witness for C5 at concrete darwin and linux inputs. -/
theorem c5_witness :
    ((installDolphinCore { baseEnv with platform := .darwin }
        .NETPLAY ["userData", "temp", "a.dmg"] false []).err = none ∧
      Ev.log (permFailLogMsg .NETPLAY) ∈
        (installDolphinCore { baseEnv with platform := .darwin }
          .NETPLAY ["userData", "temp", "a.dmg"] false []).evs) ∧
    (installDolphinCore
        { baseEnv with
          platform := .linux,
          archive := [(["Slippi_Online-x86_64.AppImage"], "elf")] }
        .PLAYBACK ["userData", "temp", "a-Linux.zip"] false []).err = some chmodErrMsg := by
  constructor
  · exact (c5_amended_permission_fix { baseEnv with platform := .darwin }
      .NETPLAY ["userData", "temp", "a.dmg"] false []).1 rfl rfl
  · exact (c5_amended_permission_fix
      { baseEnv with
        platform := .linux,
        archive := [(["Slippi_Online-x86_64.AppImage"], "elf")] }
      .PLAYBACK ["userData", "temp", "a-Linux.zip"] false []).2 rfl rfl "elf" (by decide)

/-! Claim C7. -/

lemma find?_first_match {α : Type} (p : α → Bool) (l1 : List α) (a : α) (l2 : List α)
    (h1 : ∀ b ∈ l1, p b = false) (ha : p a = true) :
    (l1 ++ a :: l2).find? p = some a := by
  induction l1 with
  | nil => simp [List.find?_cons, ha]
  | cons x xs ih =>
    have hx : p x = false := h1 x (by simp)
    simpa [List.find?_cons, hx] using ih (fun b hb => h1 b (by simp [hb]))

lemma find?_no_match {α : Type} (p : α → Bool) (l : List α)
    (h : ∀ b ∈ l, p b = false) : l.find? p = none := by
  rw [List.find?_eq_none]
  intro x hx
  simp [h x hx]

/-- C7 — asset selection: when the latest release's asset list splits as a
possibly-empty run of non-matching assets followed by a matching one, the
first match is returned (this covers the exactly-one-match case and fixes the
tie-breaking order); with zero matching assets the call fails with the
platform-identifying NoMatchingAsset error; the per-platform suffix
conventions are Win.zip on win32, Mac.dmg on darwin and Linux.zip on linux. -/
theorem c7_asset_selection (env : Env) (type : DolphinLaunchType) (tag : String)
    (assets : List Asset)
    (hrel : env.getLatestRelease "project-slippi" (repoName type) = .ok ⟨tag, assets⟩) :
    (∀ l1 a l2, assets = l1 ++ a :: l2 →
      (∀ b ∈ l1, matchesPlatform env.platform b.name = false) →
      matchesPlatform env.platform a.name = true →
      getLatestDolphinAsset env type = .ok a) ∧
    ((∀ a ∈ assets, matchesPlatform env.platform a.name = false) →
      getLatestDolphinAsset env type =
        .error ("No release asset matched the current platform: "
          ++ platformString env.platform)) ∧
    (∀ nm : String,
      matchesPlatform .win32 nm = strEndsWith nm "Win.zip" ∧
      matchesPlatform .darwin nm = strEndsWith nm "Mac.dmg" ∧
      matchesPlatform .linux nm = strEndsWith nm "Linux.zip") := by
  refine ⟨?_, ?_, fun nm => ⟨rfl, rfl, rfl⟩⟩
  · intro l1 a l2 hsplit h1 ha
    unfold getLatestDolphinAsset getLatestReleaseData
    rw [hrel, hsplit]
    simp only [find?_first_match _ l1 a l2 h1 ha]
  · intro hnone
    unfold getLatestDolphinAsset getLatestReleaseData
    rw [hrel]
    simp only [find?_no_match _ _ hnone]

/-- Witness for C7: on win32, with one earlier non-matching asset and a later
second match, the first Win.zip asset is selected. -/
theorem c7_witness :
    getLatestDolphinAsset
      { baseEnv with
        platform := .win32,
        getLatestRelease := fun _ _ => .ok ⟨"v2.3.3",
          [⟨"FM-Slippi-2.3.3-Mac.dmg", "u1"⟩, ⟨"FM-Slippi-2.3.3-Win.zip", "u2"⟩,
            ⟨"FM-Slippi-2.3.4-Win.zip", "u3"⟩]⟩ }
      .NETPLAY = .ok ⟨"FM-Slippi-2.3.3-Win.zip", "u2"⟩ := by
  exact (c7_asset_selection
      { baseEnv with
        platform := .win32,
        getLatestRelease := fun _ _ => .ok ⟨"v2.3.3",
          [⟨"FM-Slippi-2.3.3-Mac.dmg", "u1"⟩, ⟨"FM-Slippi-2.3.3-Win.zip", "u2"⟩,
            ⟨"FM-Slippi-2.3.4-Win.zip", "u3"⟩]⟩ }
      .NETPLAY "v2.3.3" _ rfl).1
    [⟨"FM-Slippi-2.3.3-Mac.dmg", "u1"⟩] ⟨"FM-Slippi-2.3.3-Win.zip", "u2"⟩
    [⟨"FM-Slippi-2.3.4-Win.zip", "u3"⟩] rfl (by decide) (by decide)

/-! Claim C8. -/

/-- C8 — version comparison: with the executable discoverable and its version
output and the latest tag both parsing as release versions, the comparison
resolves to Outdated (true) exactly when the installed triple is strictly
below the latest triple in lexicographic major/minor/patch order; in
particular 2.9.0 against 2.10.0 is outdated while 2.10.0 and 2.10.1 against
2.10.0 are up to date. -/
theorem c8_version_comparison (env : Env) (type : DolphinLaunchType) (fs : FS)
    (latest installed : String) (vi vl : Nat × Nat × Nat)
    (hfind : FS.existsFile fs (execPathOf env type) = true)
    (hout : env.versionOutput type = .ok installed)
    (hpi : parseSemver installed = some vi) (hpl : parseSemver latest = some vl) :
    ((compareDolphinVersion env type latest ⟨fs, []⟩).2 = .ok (semverTripleLt vi vl)) ∧
    (semverTripleLt vi vl = true ↔
      vi.1 < vl.1 ∨ (vi.1 = vl.1 ∧
        (vi.2.1 < vl.2.1 ∨ (vi.2.1 = vl.2.1 ∧ vi.2.2 < vl.2.2)))) ∧
    semverLtE "2.9.0" "2.10.0" = .ok true ∧
    semverLtE "2.10.0" "2.10.0" = .ok false ∧
    semverLtE "2.10.1" "2.10.0" = .ok false := by
  refine ⟨?_, ?_, by rfl, by rfl, by rfl⟩
  · simp only [compareDolphinVersion, findDolphinExecutable, findExecFS, hfind, if_true,
      hout, semverLtE, hpi, hpl]
  · obtain ⟨a, b, c⟩ := vi
    obtain ⟨d, e, f⟩ := vl
    simp [semverTripleLt, Nat.blt_eq]

/-- Witness for C8: installed 2.9.0 against latest 2.10.0 resolves to
Outdated. -/
theorem c8_witness :
    (compareDolphinVersion
        { baseEnv with
          platform := .win32,
          versionOutput := fun _ => .ok "2.9.0" }
        .NETPLAY "2.10.0"
        ⟨[⟨["userData", "netplay", "Slippi Dolphin.exe"], "exe"⟩], []⟩).2 = .ok true := by
  exact (c8_version_comparison
      { baseEnv with
        platform := .win32,
        versionOutput := fun _ => .ok "2.9.0" }
      .NETPLAY [⟨["userData", "netplay", "Slippi Dolphin.exe"], "exe"⟩]
      "2.10.0" "2.9.0" (2, 9, 0) (2, 10, 0)
      (by decide) rfl (by decide) (by decide)).1

/-! Claim C1. -/

lemma darwinUserPath_split (type : DolphinLaunchType) (rest : Path) :
    darwinUserPath type ++ rest
      = dolphinRootPath type ++ ([appBundle, "Contents", "Resources", "User"] ++ rest) := by
  simp [darwinUserPath, darwinResourcesPath]

lemma backup_tail_as_oldUser (type : DolphinLaunchType) (rest : Path) :
    backupPath type ++ ([appBundle, "Contents", "Resources", "User"] ++ rest)
      = oldUserPath type ++ rest := by
  simp [oldUserPath]

/-- C1 — for the darwin variant: when a previous installation holds a file
under its User directory (and no stale backup is in the way, and the disk
image itself carries no User files), a non-clean install keeps that file at
the same path with the same content, and no file remains under the `_old`
backup sibling after the run, which itself reports success. -/
theorem c1_darwin_install_preserves_user_data (env : Env) (type : DolphinLaunchType)
    (assetPath : Path) (fs : FS) (rest : Path) (content : String)
    (hplat : env.platform = .darwin)
    (hentry : (⟨darwinUserPath type ++ rest, content⟩ : FSEntry) ∈ fs)
    (hback : ∀ e ∈ fs, (backupPath type).isPrefixOf e.path = false)
    (hdmg : ∀ pe ∈ env.archive,
      (([appBundle, "Contents", "Resources", "User"] : Path)).isPrefixOf pe.1 = false) :
    (installDolphinCore env type assetPath false fs).err = none ∧
    (⟨darwinUserPath type ++ rest, content⟩ : FSEntry)
      ∈ (installDolphinCore env type assetPath false fs).fs ∧
    ∀ e ∈ (installDolphinCore env type assetPath false fs).fs,
      (backupPath type).isPrefixOf e.path = false := by
  have hres : FS.existsPath fs (darwinResourcesPath type) = true := by
    refine FS.existsPath_of_mem hentry ?_
    rw [darwinUserPath, List.append_assoc]
    exact isPrefixOf_append_self _ _
  have hrootpre : (dolphinRootPath type).isPrefixOf (darwinUserPath type ++ rest) = true := by
    rw [darwinUserPath_split]
    exact isPrefixOf_append_self _ _
  have hdrop : (darwinUserPath type ++ rest).drop (dolphinRootPath type).length
      = [appBundle, "Contents", "Resources", "User"] ++ rest := by
    rw [darwinUserPath_split]
    exact List.drop_left _ _
  -- the entry after the backup move
  have hmem1 : (⟨backupPath type ++ ([appBundle, "Contents", "Resources", "User"] ++ rest),
      content⟩ : FSEntry)
      ∈ FS.move fs (dolphinRootPath type) (backupPath type) := by
    have h := FS.mem_move_of (dolphinRootPath type) (backupPath type) hentry hrootpre
    rw [hdrop] at h
    exact h
  have hmem2 : (⟨backupPath type ++ ([appBundle, "Contents", "Resources", "User"] ++ rest),
      content⟩ : FSEntry)
      ∈ FS.extractTo (FS.move fs (dolphinRootPath type) (backupPath type))
        (dolphinRootPath type) env.archive :=
    FS.mem_extractTo_of_mem hmem1 (root_not_prefix_of_backup type _)
  have hmem3 : (⟨backupPath type ++ ([appBundle, "Contents", "Resources", "User"] ++ rest),
      content⟩ : FSEntry)
      ∈ FS.cleanupExtraneous
        (FS.extractTo (FS.move fs (dolphinRootPath type) (backupPath type))
          (dolphinRootPath type) env.archive) (dolphinRootPath type) :=
    FS.mem_cleanup_of_mem hmem2 (root_not_prefix_of_backup type _)
  have holdpre : (oldUserPath type).isPrefixOf
      (backupPath type ++ ([appBundle, "Contents", "Resources", "User"] ++ rest)) = true := by
    rw [backup_tail_as_oldUser]
    exact isPrefixOf_append_self _ _
  have hold : FS.existsPath
      (FS.cleanupExtraneous
        (FS.extractTo (FS.move fs (dolphinRootPath type) (backupPath type))
          (dolphinRootPath type) env.archive) (dolphinRootPath type))
      (oldUserPath type) = true :=
    FS.existsPath_of_mem hmem3 holdpre
  have hdrop2 : (backupPath type
        ++ ([appBundle, "Contents", "Resources", "User"] ++ rest)).drop
      (oldUserPath type).length = rest := by
    rw [backup_tail_as_oldUser]
    exact List.drop_left _ _
  have hmem4 : (⟨darwinUserPath type ++ rest, content⟩ : FSEntry)
      ∈ FS.move
        (FS.cleanupExtraneous
          (FS.extractTo (FS.move fs (dolphinRootPath type) (backupPath type))
            (dolphinRootPath type) env.archive) (dolphinRootPath type))
        (oldUserPath type) (darwinUserPath type) := by
    have h := FS.mem_move_of (oldUserPath type) (darwinUserPath type) hmem3 holdpre
    rw [hdrop2] at h
    exact h
  have hmem5 : (⟨darwinUserPath type ++ rest, content⟩ : FSEntry)
      ∈ FS.remove
        (FS.move
          (FS.cleanupExtraneous
            (FS.extractTo (FS.move fs (dolphinRootPath type) (backupPath type))
              (dolphinRootPath type) env.archive) (dolphinRootPath type))
          (oldUserPath type) (darwinUserPath type)) (backupPath type) := by
    refine FS.mem_remove_iff.mpr ⟨hmem4, ?_⟩
    rw [darwinUserPath_split]
    exact backup_not_prefix_of_root type _
  -- steer the run through the darwin already-installed branch
  have hcore : installDolphinCore env type assetPath false fs = installDarwin env type fs := by
    unfold installDolphinCore
    rw [hplat]
    rfl
  have hinst : installDarwin env type fs
      = prependEvs
        [.log (renderPath (darwinResourcesPath type) ++ " already exists. Moving..."),
         .moveToBackup]
        (darwinAfterBackup env type true
          (FS.move fs (dolphinRootPath type) (backupPath type))) := by
    unfold installDarwin
    rw [if_pos hres]
  have hmig : darwinMigrate type true
      (FS.cleanupExtraneous
        (FS.extractTo (FS.move fs (dolphinRootPath type) (backupPath type))
          (dolphinRootPath type) env.archive) (dolphinRootPath type))
      = (FS.remove
          (FS.move
            (FS.cleanupExtraneous
              (FS.extractTo (FS.move fs (dolphinRootPath type) (backupPath type))
                (dolphinRootPath type) env.archive) (dolphinRootPath type))
            (oldUserPath type) (darwinUserPath type)) (backupPath type),
         [.log "moving User folder...", .moveUserEv, .removeBackupEv]) := by
    unfold darwinMigrate
    rw [if_pos rfl, if_pos hold]
  have hfs : (installDolphinCore env type assetPath false fs).fs
      = FS.remove
          (FS.move
            (FS.cleanupExtraneous
              (FS.extractTo (FS.move fs (dolphinRootPath type) (backupPath type))
                (dolphinRootPath type) env.archive) (dolphinRootPath type))
            (oldUserPath type) (darwinUserPath type)) (backupPath type) := by
    rw [hcore, hinst]
    show (darwinAfterBackup env type true
      (FS.move fs (dolphinRootPath type) (backupPath type))).fs = _
    simp only [darwinAfterBackup]
    rw [hmig]
  refine ⟨?_, ?_, ?_⟩
  · rw [hcore, hinst]
    rfl
  · rw [hfs]
    exact hmem5
  · rw [hfs]
    intro e he
    exact (FS.mem_remove_iff.mp he).2

/-- Witness for C1 at a concrete netplay installation holding one save file. -/
theorem c1_witness :
    (installDolphinCore
        { baseEnv with
          platform := .darwin,
          archive := [([appBundle, "Contents", "MacOS", "Slippi Dolphin"], "bin"),
            ([".DS_Store"], "junk")],
          chmodOk := true }
        .NETPLAY ["userData", "temp", "a.dmg"] false
        [⟨darwinUserPath .NETPLAY ++ ["GC", "mem.raw"], "save"⟩]).err = none ∧
    (⟨darwinUserPath .NETPLAY ++ ["GC", "mem.raw"], "save"⟩ : FSEntry)
      ∈ (installDolphinCore
        { baseEnv with
          platform := .darwin,
          archive := [([appBundle, "Contents", "MacOS", "Slippi Dolphin"], "bin"),
            ([".DS_Store"], "junk")],
          chmodOk := true }
        .NETPLAY ["userData", "temp", "a.dmg"] false
        [⟨darwinUserPath .NETPLAY ++ ["GC", "mem.raw"], "save"⟩]).fs ∧
    ∀ e ∈ (installDolphinCore
        { baseEnv with
          platform := .darwin,
          archive := [([appBundle, "Contents", "MacOS", "Slippi Dolphin"], "bin"),
            ([".DS_Store"], "junk")],
          chmodOk := true }
        .NETPLAY ["userData", "temp", "a.dmg"] false
        [⟨darwinUserPath .NETPLAY ++ ["GC", "mem.raw"], "save"⟩]).fs,
      (backupPath .NETPLAY).isPrefixOf e.path = false := by
  exact c1_darwin_install_preserves_user_data
    { baseEnv with
      platform := .darwin,
      archive := [([appBundle, "Contents", "MacOS", "Slippi Dolphin"], "bin"),
        ([".DS_Store"], "junk")],
      chmodOk := true }
    .NETPLAY ["userData", "temp", "a.dmg"]
    [⟨darwinUserPath .NETPLAY ++ ["GC", "mem.raw"], "save"⟩]
    ["GC", "mem.raw"] "save" rfl (by decide) (by decide) (by decide)

/-! Claim C6. -/

lemma FS.existsFile_writeFile (fs : FS) (p : Path) (c : String) :
    FS.existsFile (FS.writeFile fs p c) p = true := by
  refine List.any_eq_true.mpr ⟨⟨p, c⟩, ?_, by simp⟩
  exact List.mem_append_right _ (by simp)

lemma ensureLocal_cached (env : Env) (asset : Asset) (fs : FS)
    (hex : FS.existsFile fs (downloadLocationOf asset) = true) :
    ensureLocal env asset fs =
      { fs := fs,
        evs := [.log (renderPath (downloadLocationOf asset)
          ++ " already exists. Skipping download.")],
        out := .ok (downloadLocationOf asset) } := by
  unfold ensureLocal
  rw [if_pos hex]

lemma ensureLocal_download (env : Env) (asset : Asset) (fs : FS)
    (hex : FS.existsFile fs (downloadLocationOf asset) = false)
    (hw : env.windowAvailable = true) (hd : env.downloadOk = true) :
    ensureLocal env asset fs =
      { fs := FS.writeFile fs (downloadLocationOf asset) asset.browser_download_url,
        evs := [.log ("Downloading " ++ asset.browser_download_url ++ " to "
            ++ renderPath (downloadLocationOf asset)), .networkDownload, .progress,
          .log ("Successfully downloaded " ++ asset.browser_download_url ++ " to "
            ++ renderPath (downloadLocationOf asset))],
        out := .ok (downloadLocationOf asset) } := by
  unfold ensureLocal
  rw [if_neg (by simp [hex]), if_pos hw, if_pos hd]

lemma ensureLocal_headless (env : Env) (asset : Asset) (fs : FS)
    (hex : FS.existsFile fs (downloadLocationOf asset) = false)
    (hw : env.windowAvailable = false) :
    ensureLocal env asset fs =
      { fs := fs,
        evs := [.log ("Downloading " ++ asset.browser_download_url ++ " to "
            ++ renderPath (downloadLocationOf asset)),
          .log "I dunno how we got here, but apparently there is not a browser window /shrug"],
        out := .ok (downloadLocationOf asset) } := by
  unfold ensureLocal
  rw [if_neg (by simp [hex]), if_neg (by simp [hw])]

/-- C6 counterexample — the claim says the second of two `ensureLocal` calls
with the same asset and cache directory emits no progress events.  When the
first call runs without an available window, it skips the download but still
returns the artifact path, leaving the cache empty; a second call with a
window then downloads and emits progress events. -/
theorem c6_counterexample :
    Ev.progress ∈
      (ensureLocal { baseEnv with windowAvailable := true, downloadOk := true }
        ⟨"FM-Slippi-2.3.3-Win.zip", "https://example.invalid/a"⟩
        (ensureLocal baseEnv ⟨"FM-Slippi-2.3.3-Win.zip", "https://example.invalid/a"⟩
          []).fs).evs := by
  decide

/-- C6 amended — `ensureLocal` caching behaviour across two calls with the
same asset and cache directory (assuming any attempted download succeeds):
a call that finds the file cached returns its path with no filesystem change,
no network transfer and no progress events; across the two calls at most one
network download happens; both calls resolve to the same deterministic
artifact path; and the second call is network- and progress-silent provided a
window was available in the first call (so the artifact was actually cached)
or no window is available in the second. -/
theorem c6_amended_ensureLocal_idempotent (env1 env2 : Env) (asset : Asset) (fs : FS)
    (hd1 : env1.downloadOk = true) (hd2 : env2.downloadOk = true) :
    (FS.existsFile fs (downloadLocationOf asset) = true →
      (ensureLocal env1 asset fs).fs = fs ∧
      Ev.networkDownload ∉ (ensureLocal env1 asset fs).evs ∧
      Ev.progress ∉ (ensureLocal env1 asset fs).evs) ∧
    ((ensureLocal env1 asset fs).evs
        ++ (ensureLocal env2 asset (ensureLocal env1 asset fs).fs).evs).countP isNetworkEv
      ≤ 1 ∧
    (ensureLocal env1 asset fs).out = .ok (downloadLocationOf asset) ∧
    (ensureLocal env2 asset (ensureLocal env1 asset fs).fs).out
      = .ok (downloadLocationOf asset) ∧
    (env1.windowAvailable = true ∨ env2.windowAvailable = false →
      Ev.progress ∉ (ensureLocal env2 asset (ensureLocal env1 asset fs).fs).evs ∧
      Ev.networkDownload ∉ (ensureLocal env2 asset (ensureLocal env1 asset fs).fs).evs) := by
  by_cases hex : FS.existsFile fs (downloadLocationOf asset) = true
  · rw [ensureLocal_cached env1 asset fs hex]
    rw [ensureLocal_cached env2 asset fs hex]
    refine ⟨fun _ => ⟨rfl, by simp, by simp⟩, by simp [isNetworkEv], rfl, rfl,
      fun _ => ⟨by simp, by simp⟩⟩
  · have hex' : FS.existsFile fs (downloadLocationOf asset) = false := by
      simpa using hex
    rcases hw1 : env1.windowAvailable with _ | _
    · -- headless first call: the cache stays empty
      rw [ensureLocal_headless env1 asset fs hex' hw1]
      rcases hw2 : env2.windowAvailable with _ | _
      · rw [ensureLocal_headless env2 asset fs hex' hw2]
        refine ⟨fun hc => absurd hc hex, by simp [isNetworkEv], rfl, rfl,
          fun _ => ⟨by simp, by simp⟩⟩
      · rw [ensureLocal_download env2 asset fs hex' hw2 hd2]
        refine ⟨fun hc => absurd hc hex, by simp [isNetworkEv], rfl, rfl, fun h => ?_⟩
        rcases h with h | h
        · exact absurd h (by simp)
        · exact absurd h (by simp)
    · -- first call downloads, so the second call finds the cache populated
      rw [ensureLocal_download env1 asset fs hex' hw1 hd1]
      rw [ensureLocal_cached env2 asset _
        (FS.existsFile_writeFile fs (downloadLocationOf asset) asset.browser_download_url)]
      refine ⟨fun hc => absurd hc hex, by simp [isNetworkEv], rfl, rfl,
        fun _ => ⟨by simp, by simp⟩⟩

/-- Witness for C6: with a window available in both calls, the first call
downloads once and the second call is silent and returns the same path. -/
theorem c6_witness :
    ((ensureLocal { baseEnv with windowAvailable := true, downloadOk := true }
        ⟨"FM-Slippi-2.3.3-Win.zip", "https://example.invalid/a"⟩ []).evs
      ++ (ensureLocal { baseEnv with windowAvailable := true, downloadOk := true }
        ⟨"FM-Slippi-2.3.3-Win.zip", "https://example.invalid/a"⟩
        (ensureLocal { baseEnv with windowAvailable := true, downloadOk := true }
          ⟨"FM-Slippi-2.3.3-Win.zip", "https://example.invalid/a"⟩ []).fs).evs).countP
      isNetworkEv ≤ 1 ∧
    Ev.progress ∉
      (ensureLocal { baseEnv with windowAvailable := true, downloadOk := true }
        ⟨"FM-Slippi-2.3.3-Win.zip", "https://example.invalid/a"⟩
        (ensureLocal { baseEnv with windowAvailable := true, downloadOk := true }
          ⟨"FM-Slippi-2.3.3-Win.zip", "https://example.invalid/a"⟩ []).fs).evs := by
  have h := c6_amended_ensureLocal_idempotent
    { baseEnv with windowAvailable := true, downloadOk := true }
    { baseEnv with windowAvailable := true, downloadOk := true }
    ⟨"FM-Slippi-2.3.3-Win.zip", "https://example.invalid/a"⟩ [] rfl rfl
  exact ⟨h.2.1, (h.2.2.2.2 (Or.inl rfl)).1⟩

/-! Claim C4. -/

lemma isPrefixOf_trans {p q r : Path} (h1 : p.isPrefixOf q = true)
    (h2 : q.isPrefixOf r = true) : p.isPrefixOf r = true := by
  rw [List.isPrefixOf_iff_prefix] at h1 h2 ⊢
  exact h1.trans h2

lemma FS.existsPath_mono {fs : FS} {p q : Path} (hpq : p.isPrefixOf q = true)
    (h : FS.existsPath fs q = true) : FS.existsPath fs p = true := by
  obtain ⟨e, he, hqe⟩ := List.any_eq_true.mp h
  exact FS.existsPath_of_mem he (isPrefixOf_trans hpq hqe)

lemma resources_prefix_user (type : DolphinLaunchType) :
    (darwinResourcesPath type).isPrefixOf (darwinUserPath type) = true := by
  rw [darwinUserPath]
  exact isPrefixOf_append_self _ _

/-- When the original filesystem holds a file under the User directory, the
backed-up User directory still exists after the backup move, the extraction
and the cleanup of the darwin staging sequence. -/
lemma darwin_oldUser_exists (env : Env) (type : DolphinLaunchType) {fs : FS}
    (huser : FS.existsPath fs (darwinUserPath type) = true) :
    FS.existsPath
      (FS.cleanupExtraneous
        (FS.extractTo (FS.move fs (dolphinRootPath type) (backupPath type))
          (dolphinRootPath type) env.archive) (dolphinRootPath type))
      (oldUserPath type) = true := by
  obtain ⟨e, he, hpe⟩ := List.any_eq_true.mp huser
  obtain ⟨rest, hrest⟩ := (List.isPrefixOf_iff_prefix.mp hpe)
  have hentry : (⟨darwinUserPath type ++ rest, e.content⟩ : FSEntry) ∈ fs := by
    rw [hrest]
    exact he
  have hrootpre : (dolphinRootPath type).isPrefixOf (darwinUserPath type ++ rest) = true := by
    rw [darwinUserPath_split]
    exact isPrefixOf_append_self _ _
  have hdrop : (darwinUserPath type ++ rest).drop (dolphinRootPath type).length
      = [appBundle, "Contents", "Resources", "User"] ++ rest := by
    rw [darwinUserPath_split]
    exact List.drop_left _ _
  have hmem1 := FS.mem_move_of (dolphinRootPath type) (backupPath type) hentry hrootpre
  rw [hdrop] at hmem1
  have hmem2 : (⟨backupPath type ++ ([appBundle, "Contents", "Resources", "User"] ++ rest),
      e.content⟩ : FSEntry)
      ∈ FS.extractTo (FS.move fs (dolphinRootPath type) (backupPath type))
        (dolphinRootPath type) env.archive :=
    FS.mem_extractTo_of_mem hmem1 (root_not_prefix_of_backup type _)
  have hmem3 := FS.mem_cleanup_of_mem hmem2 (root_not_prefix_of_backup type _)
  refine FS.existsPath_of_mem hmem3 ?_
  rw [backup_tail_as_oldUser]
  exact isPrefixOf_append_self _ _

lemma installDolphinCore_darwin_eq (env : Env) (type : DolphinLaunchType)
    (assetPath : Path) (fs : FS) (hplat : env.platform = .darwin) :
    installDolphinCore env type assetPath false fs = installDarwin env type fs := by
  unfold installDolphinCore
  rw [hplat]
  rfl

lemma chmod_mem_darwinPermEvs (env : Env) (type : DolphinLaunchType) :
    Ev.chmodEv (bundlePath type) ∈ darwinPermEvs env type := by
  unfold darwinPermEvs
  split <;> simp

lemma moveUser_not_mem_darwinPermEvs (env : Env) (type : DolphinLaunchType) :
    Ev.moveUserEv ∉ darwinPermEvs env type := by
  unfold darwinPermEvs
  split <;> simp

/-- C4 counterexample — the claim says the user-data migration precedes the
permission-fix step (Stage, then MigrateUserData, then FixPermissions).  On a
concrete darwin upgrade with existing user data, the run's event order has a
chmod/chown action strictly before the User-folder move: the source performs
the permission fix (lines 189-196) before the migration block (lines
198-210). -/
theorem c4_counterexample :
    permFixBeforeMigration
      (installDolphinCore
        { baseEnv with
          platform := .darwin,
          archive := [([appBundle, "Contents", "MacOS", "Slippi Dolphin"], "bin")],
          chmodOk := true }
        .NETPLAY ["userData", "temp", "a.dmg"] false
        [⟨darwinUserPath .NETPLAY ++ ["GC", "mem.raw"], "save"⟩]).evs = true := by
  decide

/-- C4 amended — in every darwin run of `install(cleanInstall = false)` that
starts from an installation holding user data, the event trace splits into a
prefix containing the chmod of the application bundle and no migration action,
followed by a suffix containing the User-folder move: the permission fix
completes before the migration starts, the reverse of the claimed order. -/
theorem c4_amended_perm_fix_before_migration (env : Env) (type : DolphinLaunchType)
    (assetPath : Path) (fs : FS)
    (hplat : env.platform = .darwin)
    (huser : FS.existsPath fs (darwinUserPath type) = true) :
    ∃ pre post, (installDolphinCore env type assetPath false fs).evs = pre ++ post ∧
      Ev.chmodEv (bundlePath type) ∈ pre ∧
      Ev.moveUserEv ∉ pre ∧
      Ev.moveUserEv ∈ post := by
  have hres : FS.existsPath fs (darwinResourcesPath type) = true :=
    FS.existsPath_mono (resources_prefix_user type) huser
  have hold := darwin_oldUser_exists env type huser
  have hmig : darwinMigrate type true
      (FS.cleanupExtraneous
        (FS.extractTo (FS.move fs (dolphinRootPath type) (backupPath type))
          (dolphinRootPath type) env.archive) (dolphinRootPath type))
      = (FS.remove
          (FS.move
            (FS.cleanupExtraneous
              (FS.extractTo (FS.move fs (dolphinRootPath type) (backupPath type))
                (dolphinRootPath type) env.archive) (dolphinRootPath type))
            (oldUserPath type) (darwinUserPath type)) (backupPath type),
         [.log "moving User folder...", .moveUserEv, .removeBackupEv]) := by
    unfold darwinMigrate
    rw [if_pos rfl, if_pos hold]
  have hevs : (installDolphinCore env type assetPath false fs).evs
      = ([.log (renderPath (darwinResourcesPath type) ++ " already exists. Moving..."),
          .moveToBackup,
          .log ("Extracting to: " ++ renderPath (dolphinRootPath type)),
          .extractEv, .cleanupEv]
         ++ darwinPermEvs env type)
        ++ [.log "moving User folder...", .moveUserEv, .removeBackupEv] := by
    rw [installDolphinCore_darwin_eq env type assetPath fs hplat]
    unfold installDarwin
    rw [if_pos hres]
    show [Ev.log (renderPath (darwinResourcesPath type) ++ " already exists. Moving..."),
        Ev.moveToBackup]
      ++ (darwinAfterBackup env type true
        (FS.move fs (dolphinRootPath type) (backupPath type))).evs = _
    simp only [darwinAfterBackup]
    rw [hmig]
    simp [List.append_assoc]
  refine ⟨_, _, hevs, ?_, ?_, by simp⟩
  · exact List.mem_append_right _ (chmod_mem_darwinPermEvs env type)
  · intro hmem
    rcases List.mem_append.mp hmem with h | h
    · simp at h
    · exact moveUser_not_mem_darwinPermEvs env type h

/-- Witness for C4 on a concrete upgrade run. -/
theorem c4_witness :
    ∃ pre post,
      (installDolphinCore
        { baseEnv with
          platform := .darwin,
          archive := [([appBundle, "Contents", "MacOS", "Slippi Dolphin"], "bin")],
          chmodOk := true }
        .PLAYBACK ["userData", "temp", "a.dmg"] false
        [⟨darwinUserPath .PLAYBACK ++ ["Config", "Dolphin.ini"], "ini"⟩]).evs
        = pre ++ post ∧
      Ev.chmodEv (bundlePath .PLAYBACK) ∈ pre ∧
      Ev.moveUserEv ∉ pre ∧
      Ev.moveUserEv ∈ post := by
  exact c4_amended_perm_fix_before_migration
    { baseEnv with
      platform := .darwin,
      archive := [([appBundle, "Contents", "MacOS", "Slippi Dolphin"], "bin")],
      chmodOk := true }
    .PLAYBACK ["userData", "temp", "a.dmg"]
    [⟨darwinUserPath .PLAYBACK ++ ["Config", "Dolphin.ini"], "ini"⟩]
    rfl (by decide)

/-! Claims C2 and C3: event bookkeeping for the orchestrator. -/

lemma pushEv_events (s : St) (ev : Ev) : (pushEv s ev).events = s.events ++ [ev] := rfl

lemma forall_mem_append_of {P : Ev → Bool} {l1 l2 : List Ev}
    (h1 : ∀ x ∈ l1, P x = true) (h2 : ∀ x ∈ l2, P x = true) :
    ∀ x ∈ l1 ++ l2, P x = true := by
  intro x hx
  rcases List.mem_append.mp hx with h | h
  · exact h1 x h
  · exact h2 x h

lemma forall_mem_cons_of {P : Ev → Bool} {e : Ev} {l : List Ev}
    (he : P e = true) (hl : ∀ x ∈ l, P x = true) : ∀ x ∈ e :: l, P x = true := by
  intro x hx
  rcases List.mem_cons.mp hx with h | h
  · rw [h]; exact he
  · exact hl x h

lemma neutral_imp_local (type : DolphinLaunchType) {e : Ev} (h : neutralEv e = true) :
    localEv type e = true := by
  cases e <;> simp_all [neutralEv, localEv]

lemma findDolphinExecutable_state (env : Env) (type : DolphinLaunchType) (s : St) :
    (findDolphinExecutable env type s).1 = s := by
  unfold findDolphinExecutable
  rcases findExecFS env s.fs type with _ | p <;> rfl

lemma compareDolphinVersion_state (env : Env) (type : DolphinLaunchType) (v : String)
    (s : St) : (compareDolphinVersion env type v s).1 = s := by
  unfold compareDolphinVersion findDolphinExecutable
  rcases findExecFS env s.fs type with _ | p
  · rfl
  · rcases env.versionOutput type with e | out <;> rfl

lemma ensureLocal_evs_neutral (env : Env) (asset : Asset) (fs : FS) :
    ∀ e ∈ (ensureLocal env asset fs).evs, neutralEv e = true := by
  by_cases hex : FS.existsFile fs (downloadLocationOf asset) = true
  · rw [ensureLocal_cached env asset fs hex]
    simp [neutralEv]
  · have hex2 : FS.existsFile fs (downloadLocationOf asset) = false := by simpa using hex
    rcases hw : env.windowAvailable with _ | _
    · rw [ensureLocal_headless env asset fs hex2 hw]
      simp [neutralEv]
    · rcases hdl : env.downloadOk with _ | _
      · unfold ensureLocal
        rw [if_neg (by simp [hex2]), if_pos hw, if_neg (by simp [hdl])]
        simp [neutralEv]
      · rw [ensureLocal_download env asset fs hex2 hw hdl]
        simp [neutralEv]

lemma darwinPermEvs_neutral (env : Env) (type : DolphinLaunchType) :
    ∀ e ∈ darwinPermEvs env type, neutralEv e = true := by
  unfold darwinPermEvs
  split <;> simp [neutralEv]

lemma darwinMigrate_evs_neutral (type : DolphinLaunchType) (ai : Bool) (fs : FS) :
    ∀ e ∈ (darwinMigrate type ai fs).2, neutralEv e = true := by
  unfold darwinMigrate
  repeat' split
  all_goals simp [neutralEv]

lemma darwinAfterBackup_evs_neutral (env : Env) (type : DolphinLaunchType) (ai : Bool)
    (fs : FS) : ∀ e ∈ (darwinAfterBackup env type ai fs).evs, neutralEv e = true := by
  unfold darwinAfterBackup
  exact forall_mem_append_of
    (forall_mem_append_of (by simp [neutralEv]) (darwinPermEvs_neutral env type))
    (darwinMigrate_evs_neutral type ai _)

lemma installDarwin_evs_neutral (env : Env) (type : DolphinLaunchType) (fs : FS) :
    ∀ e ∈ (installDarwin env type fs).evs, neutralEv e = true := by
  unfold installDarwin prependEvs
  split
  · exact forall_mem_append_of (by simp [neutralEv]) (darwinAfterBackup_evs_neutral env type _ _)
  · exact darwinAfterBackup_evs_neutral env type _ _

lemma installWin32_evs_neutral (env : Env) (type : DolphinLaunchType) (fs : FS) :
    ∀ e ∈ (installWin32 env type fs).evs, neutralEv e = true := by
  simp [installWin32, neutralEv]

lemma linuxFinish_evs_neutral (env : Env) (type : DolphinLaunchType) (fsC : FS)
    (evs0 : List Ev) (h : ∀ e ∈ evs0, neutralEv e = true) :
    ∀ e ∈ (linuxFinish env type fsC evs0).evs, neutralEv e = true := by
  unfold linuxFinish
  rcases findExecFS env fsC type with _ | p
  · exact h
  · exact forall_mem_append_of h (by simp [neutralEv])

lemma installLinux_evs_neutral (env : Env) (type : DolphinLaunchType) (clean : Bool)
    (fs : FS) : ∀ e ∈ (installLinux env type clean fs).evs, neutralEv e = true := by
  unfold installLinux
  refine linuxFinish_evs_neutral _ _ _ _
    (forall_mem_append_of (forall_mem_append_of ?_ ?_) ?_)
  · rcases findExecFS env fs type with _ | p <;> simp [neutralEv]
  · cases clean <;> simp [neutralEv]
  · simp [neutralEv]

lemma installDolphinCore_evs_neutral (env : Env) (type : DolphinLaunchType)
    (assetPath : Path) (clean : Bool) (fs : FS) :
    ∀ e ∈ (installDolphinCore env type assetPath clean fs).evs, neutralEv e = true := by
  have hwipe : ∀ e ∈ (if clean then ([Ev.removeRoot type] : List Ev) else []),
      neutralEv e = true := by
    cases clean <;> simp [neutralEv]
  unfold installDolphinCore prependEvs
  rcases env.platform with _ | _ | _ | s
  · exact forall_mem_append_of hwipe (installWin32_evs_neutral env type _)
  · exact forall_mem_append_of hwipe (installDarwin_evs_neutral env type _)
  · exact forall_mem_append_of hwipe (installLinux_evs_neutral env type clean _)
  · exact hwipe

lemma downloadLatestDolphin_shape (env : Env) (type : DolphinLaunchType) (s : St) :
    ∃ δ, (downloadLatestDolphin env type s).1.events = s.events ++ δ ∧
      ∀ e ∈ δ, neutralEv e = true := by
  unfold downloadLatestDolphin
  rcases getLatestDolphinAsset env type with e | asset
  · exact ⟨[], by simp, by simp⟩
  · exact ⟨(ensureLocal env asset s.fs).evs, rfl, ensureLocal_evs_neutral env asset s.fs⟩

lemma installDolphinM_shape (env : Env) (type : DolphinLaunchType) (assetPath : Path)
    (clean : Bool) (s : St) :
    ∃ δ, (installDolphinM env type assetPath clean s).1.events = s.events ++ δ ∧
      ∀ e ∈ δ, neutralEv e = true :=
  ⟨(installDolphinCore env type assetPath clean s.fs).evs, rfl,
    installDolphinCore_evs_neutral env type assetPath clean s.fs⟩

lemma installPhase_shape (env : Env) (type : DolphinLaunchType) (clean : Bool)
    (s1 : St) (r1 : Except String Path) :
    ∃ δ, (installPhase env type clean (s1, r1)).1.events = s1.events ++ δ ∧
      ∀ e ∈ δ, neutralEv e = true := by
  cases r1 with
  | error e => exact ⟨[], by simp [installPhase], by simp⟩
  | ok ap =>
    obtain ⟨δ2, h2, hn2⟩ := installDolphinM_shape env type ap clean
      (pushEv s1 (.log (logInstallingMsg type)))
    rcases hi : installDolphinM env type ap clean (pushEv s1 (.log (logInstallingMsg type)))
      with ⟨s2, r2⟩
    rw [hi, pushEv_events] at h2
    simp only [installPhase]
    rw [hi]
    cases r2 with
    | error e =>
      refine ⟨.log (logInstallingMsg type) :: δ2, ?_, forall_mem_cons_of rfl hn2⟩
      show s2.events = _
      rw [h2]
      simp
    | ok u =>
      refine ⟨.log (logInstallingMsg type) :: (δ2 ++ [.log (logFinishedMsg type)]), ?_,
        forall_mem_cons_of rfl (forall_mem_append_of hn2 (by simp [neutralEv]))⟩
      show (pushEv s2 (.log (logFinishedMsg type))).events = _
      rw [pushEv_events, h2]
      simp

lemma downloadAndInstallDolphin_shape (env : Env) (type : DolphinLaunchType)
    (clean : Bool) (s : St) :
    ∃ δ, (downloadAndInstallDolphin env type clean s).1.events
        = s.events ++ .downloadAndInstallStarted type :: δ ∧
      ∀ e ∈ δ, neutralEv e = true := by
  obtain ⟨δ1, h1, hn1⟩ := downloadLatestDolphin_shape env type
    (pushEv s (.downloadAndInstallStarted type))
  rcases hd : downloadLatestDolphin env type (pushEv s (.downloadAndInstallStarted type))
    with ⟨s1, r1⟩
  rw [hd, pushEv_events] at h1
  obtain ⟨δ2, h2, hn2⟩ := installPhase_shape env type clean s1 r1
  refine ⟨δ1 ++ δ2, ?_, forall_mem_append_of hn1 hn2⟩
  unfold downloadAndInstallDolphin
  rw [hd, h2, h1]
  simp

lemma versionPhase_shape (env : Env) (type : DolphinLaunchType) (s3 : St)
    (rc : Except String Bool) :
    ∃ δ, (versionPhase env type (s3, rc)).1.events = s3.events ++ δ ∧
      ∀ e ∈ δ, neutralEv e = true := by
  rcases rc with e | b
  · exact ⟨[], by simp [versionPhase], by simp⟩
  · rcases b with _ | _
    · exact ⟨[.log "No update found..."],
        by simp [versionPhase, pushEv_events], by simp [neutralEv]⟩
    · obtain ⟨δd, hd, hnd⟩ := downloadAndInstallDolphin_shape env type false
        (pushEv s3 (.log (logOutdatedMsg type)))
      rw [pushEv_events] at hd
      refine ⟨.log (logOutdatedMsg type) :: .downloadAndInstallStarted type :: δd, ?_,
        forall_mem_cons_of rfl (forall_mem_cons_of rfl hnd)⟩
      show (downloadAndInstallDolphin env type false
        (pushEv s3 (.log (logOutdatedMsg type)))).1.events = _
      rw [hd]
      simp

lemma updateCheckPhase_shape (env : Env) (type : DolphinLaunchType) (s1 : St)
    (r : Except String Path) :
    ∃ δ, (updateCheckPhase env type (s1, r)).1.events = s1.events ++ δ ∧
      ∀ e ∈ δ, neutralEv e = true := by
  rcases r with e | p
  · exact ⟨[], by simp [updateCheckPhase], by simp⟩
  · simp only [updateCheckPhase]
    rcases getLatestReleaseData env type with e | data
    · refine ⟨[.log (logFoundMsg type), .log (logCheckingMsg type)], ?_,
        by simp [neutralEv]⟩
      show (pushEv (pushEv s1 (.log (logFoundMsg type))) (.log (logCheckingMsg type))).events = _
      rw [pushEv_events, pushEv_events]
      simp
    · have hs3 := compareDolphinVersion_state env type data.tag_name
        (pushEv (pushEv s1 (.log (logFoundMsg type))) (.log (logCheckingMsg type)))
      rcases hc : compareDolphinVersion env type data.tag_name
          (pushEv (pushEv s1 (.log (logFoundMsg type))) (.log (logCheckingMsg type)))
        with ⟨s3, rc⟩
      rw [hc] at hs3
      have hs3e : s3.events
          = s1.events ++ [.log (logFoundMsg type), .log (logCheckingMsg type)] := by
        have h4 : s3 = pushEv (pushEv s1 (.log (logFoundMsg type)))
            (.log (logCheckingMsg type)) := hs3
        rw [h4, pushEv_events, pushEv_events]
        simp
      obtain ⟨δv, hv, hnv⟩ := versionPhase_shape env type s3 rc
      rw [hs3e] at hv
      refine ⟨[.log (logFoundMsg type), .log (logCheckingMsg type)] ++ δv, ?_,
        forall_mem_append_of (by simp [neutralEv]) hnv⟩
      show (versionPhase env type (compareDolphinVersion env type data.tag_name
        (pushEv (pushEv s1 (.log (logFoundMsg type))) (.log (logCheckingMsg type))))).1.events = _
      rw [hc, hv]
      simp

lemma assertTryBody_shape (env : Env) (type : DolphinLaunchType) (s0 : St) :
    ∃ δ, (assertTryBody env type s0).1.events = s0.events ++ δ ∧
      ∀ e ∈ δ, neutralEv e = true := by
  unfold assertTryBody
  have hstate := findDolphinExecutable_state env type s0
  rcases hf : findDolphinExecutable env type s0 with ⟨s1, r⟩
  rw [hf] at hstate
  obtain ⟨δ, h, hn⟩ := updateCheckPhase_shape env type s1 r
  refine ⟨δ, ?_, hn⟩
  rw [h]
  have h1 : s1 = s0 := hstate
  rw [h1]

lemma assertDolphinInstallation_shape (env : Env) (type : DolphinLaunchType) (s : St) :
    ∃ δ, (assertDolphinInstallation env type s).1.events
        = s.events ++ .kindStarted type :: δ ∧
      ∀ e ∈ δ, neutralEv e = true := by
  obtain ⟨δt, ht, hnt⟩ := assertTryBody_shape env type (pushEv s (.kindStarted type))
  rcases htb : assertTryBody env type (pushEv s (.kindStarted type)) with ⟨sE, rt⟩
  rw [htb, pushEv_events] at ht
  unfold assertDolphinInstallation
  rw [htb]
  cases rt with
  | ok u =>
    refine ⟨δt, ?_, hnt⟩
    show sE.events = _
    rw [ht]
    simp
  | error e =>
    obtain ⟨δd, hd, hnd⟩ := downloadAndInstallDolphin_shape env type false
      (pushEv sE (.log (logCouldNotFindMsg type)))
    rw [pushEv_events, ht] at hd
    refine ⟨δt ++ .log (logCouldNotFindMsg type)
      :: .downloadAndInstallStarted type :: δd, ?_, ?_⟩
    · show (downloadAndInstallDolphin env type false
        (pushEv sE (.log (logCouldNotFindMsg type)))).1.events = _
      rw [hd]
      simp
    · exact forall_mem_append_of hnt
        (forall_mem_cons_of rfl (forall_mem_cons_of rfl hnd))

lemma localEv_of_neutral_list {type : DolphinLaunchType} {l : List Ev}
    (h : ∀ e ∈ l, neutralEv e = true) : ∀ e ∈ l, localEv type e = true :=
  fun e he => neutral_imp_local type (h e he)

lemma neutral_not_finished {e : Ev} (h : neutralEv e = true) : isFinishedEv e = false := by
  cases e <;> simp_all [neutralEv, isFinishedEv]

lemma neutral_not_kindStarted {e : Ev} (h : neutralEv e = true)
    (type : DolphinLaunchType) : e ≠ .kindStarted type := by
  intro heq
  subst heq
  simp [neutralEv] at h

lemma countFinished_of_neutral {l : List Ev} (h : ∀ e ∈ l, neutralEv e = true) :
    l.countP isFinishedEv = 0 :=
  List.countP_eq_zero.mpr (fun e he => by simp [neutral_not_finished (h e he)])

/-- C2 — one `syncAll` run (`assertDolphinInstallations`) emits exactly one
terminal event; when the netplay kind rejects, the run ends immediately with
that error as the terminal payload and the playback kind is never entered (its
entry marker is absent); when netplay resolves, the run continues with
playback, whose error becomes the payload, and only when both resolve is the
payload null. -/
theorem c2_syncAll_fail_fast_single_terminal (env : Env) (fs : FS) :
    countFinished (assertDolphinInstallations env ⟨fs, []⟩).1.events = 1 ∧
    (∀ s1 e, assertDolphinInstallation env .NETPLAY ⟨fs, []⟩ = (s1, .error e) →
      (assertDolphinInstallations env ⟨fs, []⟩).1.events
        = s1.events ++ [.finished (some e)] ∧
      Ev.kindStarted .PLAYBACK ∉ (assertDolphinInstallations env ⟨fs, []⟩).1.events) ∧
    (∀ s1, assertDolphinInstallation env .NETPLAY ⟨fs, []⟩ = (s1, .ok ()) →
      (∀ s2 e, assertDolphinInstallation env .PLAYBACK s1 = (s2, .error e) →
        (assertDolphinInstallations env ⟨fs, []⟩).1.events
          = s2.events ++ [.finished (some e)]) ∧
      (∀ s2, assertDolphinInstallation env .PLAYBACK s1 = (s2, .ok ()) →
        (assertDolphinInstallations env ⟨fs, []⟩).1.events
          = s2.events ++ [.finished none])) := by
  obtain ⟨δ1, h1, hn1⟩ := assertDolphinInstallation_shape env .NETPLAY ⟨fs, []⟩
  rcases hN : assertDolphinInstallation env .NETPLAY ⟨fs, []⟩ with ⟨s1, r1⟩
  rw [hN] at h1
  have h1e : s1.events = .kindStarted .NETPLAY :: δ1 := by simpa using h1
  unfold assertDolphinInstallations
  rw [hN]
  cases r1 with
  | error e =>
    have hevs : (playbackPhase env (s1, Except.error e)).1.events
        = s1.events ++ [.finished (some e)] := by
      show (pushEv s1 (.finished (some e))).events = _
      rw [pushEv_events]
    refine ⟨?_, ?_, ?_⟩
    · rw [countFinished, hevs, h1e]
      simp [List.countP_append, List.countP_cons, isFinishedEv,
        countFinished_of_neutral hn1]
    · intro s1b eb heq
      injection heq with hs he
      injection he with he
      subst hs
      subst he
      refine ⟨hevs, ?_⟩
      intro hmem
      rw [hevs, h1e] at hmem
      rcases List.mem_append.mp hmem with hm | hm
      · rcases List.mem_cons.mp hm with hm2 | hm2
        · exact absurd hm2 (by decide)
        · have hn := hn1 _ hm2
          simp [neutralEv] at hn
      · simp at hm
    · intro s1b heq
      simp at heq
  | ok u =>
    cases u
    obtain ⟨δ2, h2, hn2⟩ := assertDolphinInstallation_shape env .PLAYBACK s1
    rcases hP : assertDolphinInstallation env .PLAYBACK s1 with ⟨s2, r2⟩
    rw [hP] at h2
    have h2e : s2.events = s1.events ++ .kindStarted .PLAYBACK :: δ2 := by simpa using h2
    simp only [playbackPhase]
    rw [hP]
    cases r2 with
    | error e2 =>
      refine ⟨?_, ?_, ?_⟩
      · show countFinished (pushEv s2 (.finished (some e2))).events = 1
        rw [countFinished, pushEv_events, h2e, h1e]
        simp [List.countP_append, List.countP_cons, isFinishedEv,
          countFinished_of_neutral hn1, countFinished_of_neutral hn2]
      · intro s1b eb heq
        simp at heq
      · intro s1b heq
        injection heq with hs _
        subst hs
        constructor
        · intro s2b e2b heq2
          rw [hP] at heq2
          injection heq2 with hs2 he2
          injection he2 with he2
          subst hs2
          subst he2
          show (pushEv s2 (.finished (some e2))).events = _
          rw [pushEv_events]
        · intro s2b heq2
          rw [hP] at heq2
          simp at heq2
    | ok u2 =>
      cases u2
      refine ⟨?_, ?_, ?_⟩
      · show countFinished (pushEv s2 (.finished none)).events = 1
        rw [countFinished, pushEv_events, h2e, h1e]
        simp [List.countP_append, List.countP_cons, isFinishedEv,
          countFinished_of_neutral hn1, countFinished_of_neutral hn2]
      · intro s1b eb heq
        simp at heq
      · intro s1b heq
        injection heq with hs _
        subst hs
        constructor
        · intro s2b e2b heq2
          rw [hP] at heq2
          simp at heq2
        · intro s2b heq2
          rw [hP] at heq2
          injection heq2 with hs2 _
          subst hs2
          show (pushEv s2 (.finished none)).events = _
          rw [pushEv_events]

/-- Witness for C2 at a concrete environment where the netplay kind fails
before the playback kind is entered (no executable, release query offline). -/
theorem c2_witness :
    countFinished (assertDolphinInstallations baseEnv ⟨[], []⟩).1.events = 1 ∧
    (assertDolphinInstallations baseEnv ⟨[], []⟩).1.events
      = [.kindStarted .NETPLAY, .log (logCouldNotFindMsg .NETPLAY),
          .downloadAndInstallStarted .NETPLAY] ++ [.finished (some "offline")] := by
  have h := c2_syncAll_fail_fast_single_terminal baseEnv []
  refine ⟨h.1, ?_⟩
  exact (h.2.1 ⟨[], [.kindStarted .NETPLAY, .log (logCouldNotFindMsg .NETPLAY),
    .downloadAndInstallStarted .NETPLAY]⟩ "offline" (by rfl)).1

/-! Claim C3. -/

lemma pushEv_fs (s : St) (ev : Ev) : (pushEv s ev).fs = s.fs := rfl

lemma marker_mem_downloadAndInstall (env : Env) (type : DolphinLaunchType)
    (clean : Bool) (s : St) :
    Ev.downloadAndInstallStarted type
      ∈ (downloadAndInstallDolphin env type clean s).1.events := by
  obtain ⟨δ, h, _⟩ := downloadAndInstallDolphin_shape env type clean s
  rw [h]
  exact List.mem_append_right _ (List.mem_cons_self _ _)

/-- When discovery finds no executable, the catch handler runs a from-scratch
download and install. -/
lemma assertDolphinInstallation_notfound (env : Env) (type : DolphinLaunchType)
    (s : St) (hf : findExecFS env s.fs type = none) :
    assertDolphinInstallation env type s
      = downloadAndInstallDolphin env type false
          (pushEv (pushEv s (.kindStarted type)) (.log (logCouldNotFindMsg type))) := by
  unfold assertDolphinInstallation assertTryBody findDolphinExecutable
  simp only [pushEv_fs]
  rw [hf]
  show assertCatch env type (updateCheckPhase env type
    (pushEv s (.kindStarted type), Except.error (execNotFoundMsg type))) = _
  simp only [updateCheckPhase, assertCatch]

/-- When the executable is found but the release query rejects, the rejection
is caught and a from-scratch download and install is attempted. -/
lemma assertDolphinInstallation_found_release_error (env : Env)
    (type : DolphinLaunchType) (s : St) (p : Path) (e : String)
    (hf : findExecFS env s.fs type = some p)
    (hrel : getLatestReleaseData env type = .error e) :
    assertDolphinInstallation env type s
      = downloadAndInstallDolphin env type false
          (pushEv (pushEv (pushEv (pushEv s (.kindStarted type))
            (.log (logFoundMsg type))) (.log (logCheckingMsg type)))
            (.log (logCouldNotFindMsg type))) := by
  unfold assertDolphinInstallation assertTryBody findDolphinExecutable
  simp only [pushEv_fs]
  rw [hf]
  show assertCatch env type (updateCheckPhase env type
    (pushEv s (.kindStarted type), Except.ok p)) = _
  simp only [updateCheckPhase]
  rw [hrel]
  show assertCatch env type
    (pushEv (pushEv (pushEv s (.kindStarted type)) (.log (logFoundMsg type)))
      (.log (logCheckingMsg type)), Except.error e) = _
  simp only [assertCatch]

/-- When the executable is found and the release query resolves but the
version invocation rejects, the rejection is likewise caught and a
from-scratch download and install is attempted. -/
lemma assertDolphinInstallation_found_version_error (env : Env)
    (type : DolphinLaunchType) (s : St) (p : Path) (data : Release) (e : String)
    (hf : findExecFS env s.fs type = some p)
    (hrel : getLatestReleaseData env type = .ok data)
    (hver : env.versionOutput type = .error e) :
    assertDolphinInstallation env type s
      = downloadAndInstallDolphin env type false
          (pushEv (pushEv (pushEv (pushEv s (.kindStarted type))
            (.log (logFoundMsg type))) (.log (logCheckingMsg type)))
            (.log (logCouldNotFindMsg type))) := by
  unfold assertDolphinInstallation assertTryBody findDolphinExecutable
  simp only [pushEv_fs]
  rw [hf]
  show assertCatch env type (updateCheckPhase env type
    (pushEv s (.kindStarted type), Except.ok p)) = _
  simp only [updateCheckPhase]
  rw [hrel]
  show assertCatch env type (versionPhase env type
    (compareDolphinVersion env type data.tag_name
      (pushEv (pushEv (pushEv s (.kindStarted type)) (.log (logFoundMsg type)))
        (.log (logCheckingMsg type))))) = _
  unfold compareDolphinVersion findDolphinExecutable
  simp only [pushEv_fs]
  rw [hf, hver]
  show assertCatch env type
    (pushEv (pushEv (pushEv s (.kindStarted type)) (.log (logFoundMsg type)))
      (.log (logCheckingMsg type)), Except.error e) = _
  simp only [assertCatch]

/-- C3 counterexample — the claim says that when the executable is found and
the release query fails, the failure is surfaced as fatal without triggering a
reinstall.  On a concrete environment with the netplay AppImage present and a failing
release query, the run does enter `downloadAndInstallDolphin` (the entry
marker is in the trace): the whole try-block is wrapped by the catch handler,
which reacts to every rejection by reinstalling. -/
theorem c3_counterexample :
    Ev.downloadAndInstallStarted .NETPLAY ∈
      (assertDolphinInstallation
        { baseEnv with
          platform := .linux,
          getLatestRelease := fun _ _ => .error "API rate limit exceeded",
          versionOutput := fun _ => .ok "2.10.0" }
        .NETPLAY
        ⟨[⟨["userData", "netplay", "Slippi_Online-x86_64.AppImage"], "elf"⟩], []⟩).1.events ∧
    (assertDolphinInstallation
        { baseEnv with
          platform := .linux,
          getLatestRelease := fun _ _ => .error "API rate limit exceeded",
          versionOutput := fun _ => .ok "2.10.0" }
        .NETPLAY
        ⟨[⟨["userData", "netplay", "Slippi_Online-x86_64.AppImage"], "elf"⟩], []⟩).2
      = .error "API rate limit exceeded" := by
  exact ⟨by decide, by rfl⟩

/-- C3 amended — per-kind update decision: when the executable is not found,
the run proceeds to download and install regardless of the release oracle
(the NotInstalled path, as claimed); but when the executable is found and the
release query or the version invocation rejects, the rejection is caught by
the surrounding try/catch and a full from-scratch download-and-install is
attempted (its entry marker appears in the trace); only a rejection of that
reinstall is surfaced to the caller. -/
theorem c3_amended_update_decision (env : Env) (fs : FS) (type : DolphinLaunchType) :
    (findExecFS env fs type = none →
      Ev.downloadAndInstallStarted type
        ∈ (assertDolphinInstallation env type ⟨fs, []⟩).1.events) ∧
    (∀ p e, findExecFS env fs type = some p → getLatestReleaseData env type = .error e →
      assertDolphinInstallation env type ⟨fs, []⟩
        = downloadAndInstallDolphin env type false
            ⟨fs, [.kindStarted type, .log (logFoundMsg type), .log (logCheckingMsg type),
              .log (logCouldNotFindMsg type)]⟩ ∧
      Ev.downloadAndInstallStarted type
        ∈ (assertDolphinInstallation env type ⟨fs, []⟩).1.events) ∧
    (∀ p data e, findExecFS env fs type = some p →
      getLatestReleaseData env type = .ok data → env.versionOutput type = .error e →
      assertDolphinInstallation env type ⟨fs, []⟩
        = downloadAndInstallDolphin env type false
            ⟨fs, [.kindStarted type, .log (logFoundMsg type), .log (logCheckingMsg type),
              .log (logCouldNotFindMsg type)]⟩) := by
  refine ⟨?_, ?_, ?_⟩
  · intro hf
    rw [assertDolphinInstallation_notfound env type ⟨fs, []⟩ hf]
    exact marker_mem_downloadAndInstall env type false _
  · intro p e hf hrel
    have heq := assertDolphinInstallation_found_release_error env type ⟨fs, []⟩ p e hf hrel
    refine ⟨heq, ?_⟩
    rw [heq]
    exact marker_mem_downloadAndInstall env type false _
  · intro p data e hf hrel hver
    exact assertDolphinInstallation_found_version_error env type ⟨fs, []⟩ p data e hf hrel hver

/-- Witness for C3 at a concrete environment: executable present, release
query offline. -/
theorem c3_witness :
    assertDolphinInstallation
        { baseEnv with platform := .win32 }
        .NETPLAY ⟨[⟨["userData", "netplay", "Slippi Dolphin.exe"], "exe"⟩], []⟩
      = downloadAndInstallDolphin { baseEnv with platform := .win32 } .NETPLAY false
          ⟨[⟨["userData", "netplay", "Slippi Dolphin.exe"], "exe"⟩],
            [.kindStarted .NETPLAY, .log (logFoundMsg .NETPLAY),
              .log (logCheckingMsg .NETPLAY), .log (logCouldNotFindMsg .NETPLAY)]⟩ := by
  exact ((c3_amended_update_decision { baseEnv with platform := .win32 }
    [⟨["userData", "netplay", "Slippi Dolphin.exe"], "exe"⟩] .NETPLAY).2.1
    ["userData", "netplay", "Slippi Dolphin.exe"] "offline" (by decide) (by rfl)).1

end Slippi
